import Mathlib

/-!
# Upload pipeline of `s3-golang`: shallow embedding

The two HTTP handlers `handlerUploadThumbnail` and `handlerUploadVideo`
(with the helpers `getAspectRatioType`, `getVideoAspectRatio` and
`processVideoForFastStart`) are embedded as pure functions over an explicit
`World` (local files and a log of outward calls).

Conventions of the embedding.

* A Go `string` is a Lean `String`; `strings.Split` with a one-character
  separator works on the character list.
* A Go `error` is an `Option String` (`none` is `nil`).
* Code that can panic returns a `Go α`; a panic inside a handler unwinds
  through the deferred calls and is reported as `Outcome.panic`.
* A `float64` is an `F64`: finite values are exact rationals and every
  arithmetic operation rounds to nearest, ties to even, with 53 bits,
  gradual underflow and overflow to infinity.
* Everything the handlers obtain from outside the two source files
  (identity checks, the database, the object store, the sub-processes,
  the random source, the OS) is a field of `Platform` or `apiConfig`.
-/

namespace S3Golang

/-! ## Go runtime values -/

/-- Result of Go code that either returns or panics. -/
inductive Go (α : Type) where
  | ret (a : α)
  | panic (msg : String)
  deriving DecidableEq

/-- Go strings.Split on a character list, for a one-character separator. -/
def splitChars (sep : Char) : List Char → List (List Char)
  | [] => [[]]
  | c :: cs =>
    if c = sep then [] :: splitChars sep cs
    else
      match splitChars sep cs with
      | [] => [[c]]
      | p :: ps => (c :: p) :: ps

/-- Go strings.Split(s, sep) for a one-character separator. -/
def stringsSplit (s : String) (sep : Char) : List String :=
  (splitChars sep s.data).map String.mk

/-- Go strings.Join(elems, sep). -/
def stringsJoin : List String → String → String
  | [], _ => ""
  | [a], _ => a
  | a :: b :: rest, sep => a ++ sep ++ stringsJoin (b :: rest) sep

/-! ## IEEE-754 binary64 -/

/-- A float64: finite values as exact rationals, the two infinities, NaN. -/
inductive F64 where
  | fin (q : ℚ)
  | inf (neg : Bool)
  | nan

namespace F64

/-- Nearest integer, ties to the even one. -/
def roundHalfEven (x : ℚ) : ℤ :=
  let f := ⌊x⌋
  if x - f < 1 / 2 then f
  else if 1 / 2 < x - f then f + 1
  else if f % 2 = 0 then f else f + 1

/-- Rounding of an exact rational to binary64: 53 significant bits, exponent
floor at -1022 (subnormals), overflow to infinity. -/
def round (q : ℚ) : F64 :=
  let a := |q|
  let e : ℤ := max (Int.log 2 a) (-1022)
  let u : ℚ := (2 : ℚ) ^ (e - 52)
  let r : ℚ := (roundHalfEven (a / u) : ℚ) * u
  if (2 : ℚ) ^ (1024 : ℤ) ≤ r then inf (decide (q < 0))
  else fin (if q < 0 then -r else r)

/-- Division x / y of float64. -/
def div : F64 → F64 → F64
  | fin x, fin y =>
    if y = 0 then (if x = 0 then nan else inf (decide (x < 0))) else round (x / y)
  | fin _, inf _ => fin 0
  | inf s, fin y => inf (s != decide (y < 0))
  | inf _, inf _ => nan
  | nan, _ => nan
  | _, nan => nan

/-- Subtraction x - y of float64. -/
def sub : F64 → F64 → F64
  | fin x, fin y => round (x - y)
  | fin _, inf s => inf (!s)
  | inf s, fin _ => inf s
  | inf s, inf t => if s = t then nan else inf s
  | nan, _ => nan
  | _, nan => nan

/-- Absolute value math.Abs. -/
def abs : F64 → F64
  | fin x => fin |x|
  | inf _ => inf false
  | nan => nan

/-- Comparison x < y of float64 (false as soon as a NaN is involved). -/
def lt : F64 → F64 → Bool
  | fin x, fin y => decide (x < y)
  | fin _, inf s => !s
  | inf s, fin _ => s
  | inf s, inf t => s && !t
  | nan, _ => false
  | _, nan => false

end F64

/-! ## `getAspectRatioType` (handler_upload_video.go, lines 23-38) -/

/-- Source getAspectRatioType: the untyped constants 0.01, 1.7778 and
0.5625 become float64 values by rounding. -/
def getAspectRatioType (width height : F64) : String :=
  let tolerance := F64.round (1 / 100)
  let ratio := F64.div width height
  if F64.lt (F64.abs (F64.sub ratio (F64.round (17778 / 10000)))) tolerance then "16:9"
  else if F64.lt (F64.abs (F64.sub ratio (F64.round (5625 / 10000)))) tolerance then "9:16"
  else "other"

/-- The mapping from the probed ratio label to the object-key folder
(handler_upload_video.go, lines 175-182). -/
def s3PrefixOf (ratio : String) : String :=
  if ratio = "16:9" then "landscape"
  else if ratio = "9:16" then "portrait"
  else "other"

/-! ## Decoded JSON and `getVideoAspectRatio` (lines 40-67) -/

/-- What json.Unmarshal stores in an empty interface value. -/
inductive JVal where
  | null
  | bool (b : Bool)
  | num (x : ℚ)
  | str (s : String)
  | arr (items : List JVal)
  | obj (fields : List (String × JVal))

/-- One run of ffprobe: the error of cmd.Run() and what json.Unmarshal makes
of the captured buffer when decoding into a map from strings to values. -/
structure ProbeRun where
  exitErr : Option String
  decoded : Except String (List (String × JVal))

/-- One run of ffmpeg: the error of cmd.Run() and the content of the
output file it leaves behind, if it leaves one. -/
structure RemuxRun where
  exitErr : Option String
  written : Option (List Nat)


/-! ## Library models: encoding/base64, mime, os, path/filepath -/

/-- Alphabet of base64.URLEncoding. -/
def encodeURL : List Char :=
  "ABCDEFGHIJKLMNOPQRSTUVWXYZabcdefghijklmnopqrstuvwxyz0123456789-_".data

/-- Table lookup enc.encode[val & 0x3F]. -/
def encodeChar (val : Nat) : Char :=
  encodeURL.getD (val % 64) 'A'

/-- Character list of base64.RawURLEncoding.EncodeToString: four characters for
each full group of three bytes, then two or three characters for a tail of one
or two bytes, no padding. -/
def rawURLEncode : List Nat → List Char
  | b0 :: b1 :: b2 :: rest =>
    let val := b0 * 65536 + b1 * 256 + b2
    encodeChar (val / 262144) :: encodeChar (val / 4096) :: encodeChar (val / 64) ::
      encodeChar val :: rawURLEncode rest
  | [b0, b1] =>
    let val := b0 * 65536 + b1 * 256
    [encodeChar (val / 262144), encodeChar (val / 4096), encodeChar (val / 64)]
  | [b0] =>
    let val := b0 * 65536
    [encodeChar (val / 262144), encodeChar (val / 4096)]
  | [] => []

/-- Go base64.RawURLEncoding.EncodeToString on a byte slice. -/
def RawURLEncodingEncodeToString (src : List Nat) : String :=
  String.mk (rawURLEncode src)

/-- Go unicode.IsSpace. -/
def unicodeIsSpace (c : Char) : Bool :=
  let n := c.toNat
  (9 ≤ n && n ≤ 13) || n == 32 || n == 0x85 || n == 0xA0 || n == 0x1680 ||
    (0x2000 ≤ n && n ≤ 0x200a) || n == 0x2028 || n == 0x2029 || n == 0x202f ||
    n == 0x205f || n == 0x3000

/-- Go unicode.ToLower as far as the result can be ASCII: the ASCII capitals,
U+0130 and U+212A map into ASCII; every other rune keeps a non-ASCII image and
is left as it is. -/
def runeToLower (c : Char) : Char :=
  if c.toNat = 0x130 then 'i' else if c.toNat = 0x212A then 'k' else c.toLower

/-- Go strings.TrimLeftFunc(s, unicode.IsSpace). -/
def trimLeftSpace (s : List Char) : List Char := s.dropWhile unicodeIsSpace

/-- Go strings.TrimSpace. -/
def trimSpace (s : List Char) : List Char :=
  (trimLeftSpace (trimLeftSpace s).reverse).reverse

/-- Go mime.isTSpecial: one of ()<>@,;:\"/[]?= . -/
def isTSpecial (c : Char) : Bool :=
  c.toNat ∈ [40, 41, 60, 62, 64, 44, 59, 58, 92, 34, 47, 91, 93, 63, 61]

/-- Go mime.isTokenChar. -/
def isTokenChar (c : Char) : Bool :=
  0x20 < c.toNat && c.toNat < 0x7f && !isTSpecial c

/-- Go mime.consumeToken: the longest prefix of token characters and the rest. -/
def consumeToken (v : List Char) : List Char × List Char :=
  v.span isTokenChar

/-- Go mime.checkMediaTypeDisposition. -/
def checkMediaTypeDisposition (s : List Char) : Option String :=
  let (typ, rest) := consumeToken s
  if typ = [] then some "mime: no media type"
  else
    match rest with
    | [] => none
    | c :: rest1 =>
      if c ≠ '/' then some "mime: expected slash after first token"
      else
        let (subtype, rest2) := consumeToken rest1
        if subtype = [] then some "mime: expected token after slash"
        else if rest2 ≠ [] then some "mime: unexpected content after media subtype"
        else none

/-- Quoted-string branch of Go mime.consumeValue, after the opening quote:
the value and the rest, or none when the quote is not closed or a line break
occurs. The flag records that the character before was a backslash whose
treatment depends on the current character: before a tspecial it is dropped
and the tspecial is taken literally, otherwise the backslash itself is kept. -/
def consumeQuoted : Bool → List Char → List Char → Option (List Char × List Char)
  | _, [], _ => none
  | false, x :: rest, acc =>
    if x.toNat = 34 then some (acc.reverse, rest)
    else if x.toNat = 92 then consumeQuoted true rest acc
    else if x = '\r' ∨ x = '\n' then none
    else consumeQuoted false rest (x :: acc)
  | true, x :: rest, acc =>
    if isTSpecial x then consumeQuoted false rest (x :: acc)
    else if x = '\r' ∨ x = '\n' then none
    else consumeQuoted false rest (x :: Char.ofNat 92 :: acc)

/-- Go mime.consumeValue. -/
def consumeValue (v : List Char) : List Char × List Char :=
  match v with
  | [] => ([], [])
  | c :: rest =>
    if c.toNat ≠ 34 then consumeToken v
    else
      match consumeQuoted false rest [] with
      | some r => r
      | none => ([], v)

/-- Go mime.consumeMediaParam: (param, value, rest); an empty param means no
parameter could be read and rest is the input. -/
def consumeMediaParam (v : List Char) : List Char × List Char × List Char :=
  match trimLeftSpace v with
  | [] => ([], [], v)
  | c :: rest0 =>
    if c ≠ ';' then ([], [], v)
    else
      let (param, rest1) := consumeToken (trimLeftSpace rest0)
      let param := param.map runeToLower
      if param = [] then ([], [], v)
      else
        match trimLeftSpace rest1 with
        | [] => ([], [], v)
        | d :: rest2 =>
          if d ≠ '=' then ([], [], v)
          else
            let rest3 := trimLeftSpace rest2
            let (value, rest4) := consumeValue rest3
            if value = [] ∧ rest4 = rest3 then ([], [], v)
            else (param, value, rest4)

/-- Result of the parameter loop of Go mime.ParseMediaType. -/
inductive ParamScan where
  | ok
  | invalid
  | duplicate

/-- Parameter loop of Go mime.ParseMediaType; seen holds the parameters read
so far. The fuel bounds the number of rounds; every round consumes input. -/
def scanParams : Nat → List Char → List (List Char × List Char) → ParamScan
  | 0, _, _ => ParamScan.ok
  | fuel + 1, v, seen =>
    match trimLeftSpace v with
    | [] => ParamScan.ok
    | v1 =>
      match consumeMediaParam v1 with
      | ([], _, rest) =>
        if trimSpace rest = [';'] then ParamScan.ok else ParamScan.invalid
      | (key, value, rest) =>
        match seen.lookup key with
        | some old =>
          if old ≠ value then ParamScan.duplicate
          else scanParams fuel rest ((key, value) :: seen)
        | none => scanParams fuel rest ((key, value) :: seen)

/-- Go mime.ParseMediaType, reduced to the media type and the error it returns
(the parameter map is not used by the handlers). -/
def mimeParseMediaType (v : String) : String × Option String :=
  let base := v.data.takeWhile (fun c => c ≠ ';')
  let mediatype := trimSpace (base.map runeToLower)
  match checkMediaTypeDisposition mediatype with
  | some e => ("", some e)
  | none =>
    let rest := v.data.drop base.length
    match scanParams (rest.length + 1) rest [] with
    | ParamScan.ok => (String.mk mediatype, none)
    | ParamScan.invalid => (String.mk mediatype, some "mime: invalid media parameter")
    | ParamScan.duplicate => ("", some "mime: duplicate parameter name")

/-- Cut a character list at the last occurrence of c. -/
def cutLast (c : Char) : List Char → Option (List Char × List Char)
  | [] => none
  | x :: xs =>
    match cutLast c xs with
    | some (p, s) => some (x :: p, s)
    | none => if x = c then some ([], xs) else none

/-- Go os.prefixAndSuffix: none when the pattern contains a path separator,
otherwise the pattern split at its last star. -/
def prefixAndSuffix (pattern : String) : Option (String × String) :=
  if '/' ∈ pattern.data then none
  else
    match cutLast '*' pattern.data with
    | some (p, s) => some (String.mk p, String.mk s)
    | none => some (pattern, "")

/-- Go os.joinPath. -/
def joinPath (dir name : String) : String :=
  if dir.data.getLast? = some '/' then dir ++ name else dir ++ "/" ++ name

/-- Element loop of Go filepath.Clean on the path elements between slashes;
out is the cleaned path so far, last element first. -/
def cleanElems (rooted : Bool) : List (List Char) → List (List Char) → List (List Char)
  | [], out => out
  | c :: cs, out =>
    if c = [] ∨ c = ['.'] then cleanElems rooted cs out
    else if c = ['.', '.'] then
      match out with
      | top :: below =>
        if top = ['.', '.'] then cleanElems rooted cs (c :: out)
        else cleanElems rooted cs below
      | [] => if rooted then cleanElems rooted cs [] else cleanElems rooted cs [c]
    else cleanElems rooted cs (c :: out)

/-- A plain path element: not empty, not a dot, not two dots, without slash. -/
def plainElem (e : List Char) : Prop :=
  e ≠ [] ∧ e ≠ ['.'] ∧ e ≠ ['.', '.'] ∧ '/' ∉ e

/-- Go filepath.Clean (Unix). -/
def filepathClean (path : String) : String :=
  if path = "" then "."
  else
    let rooted := path.data.head? = some '/'
    let out := (cleanElems rooted (splitChars '/' path.data) []).reverse
    let body := String.mk (List.intercalate ['/'] out)
    let res := if rooted then "/" ++ body else body
    if res = "" then "." else res

/-- Go filepath.Join: empty elements before the first non-empty one are
dropped, the rest is joined with slashes and cleaned. -/
def filepathJoin : List String → String
  | [] => ""
  | e :: rest => if e = "" then filepathJoin rest else filepathClean (stringsJoin (e :: rest) "/")


/-! ## The world of one request -/

/-- Metadata row database.Video: the fields the handlers read or write, the
remaining descriptive fields carried as one value. -/
structure Video where
  ID : Nat
  UserID : Nat
  ThumbnailURL : Option String
  VideoURL : Option String
  Details : String
  deriving DecidableEq

/-- Argument of s3Client.PutObject. -/
structure PutObjectInput where
  Bucket : String
  Key : String
  Body : List Nat
  ContentType : String
  deriving DecidableEq

/-- Outward calls of a handler, in the order they are made. -/
inductive Call where
  | parseMultipartForm
  | createFile (path : String)
  | removeFile (path : String)
  | putObject (input : PutObjectInput)
  | updateVideo (video : Video)
  deriving DecidableEq

/-- Local files (path and content) and the log of calls, oldest first. -/
structure World where
  files : List (String × List Nat)
  calls : List Call
  deriving DecidableEq

namespace World

/-- Append a call to the log. -/
def log (w : World) (c : Call) : World :=
  { w with calls := w.calls ++ [c] }

/-- Create or replace the file at path. -/
def writeFile (w : World) (path : String) (data : List Nat) : World :=
  { w with files := (path, data) :: w.files.filter (fun f => f.1 ≠ path) }

/-- Delete the file at path (os.Remove; its error is never looked at). -/
def removeFile (w : World) (path : String) : World :=
  { w with files := w.files.filter (fun f => f.1 ≠ path),
           calls := w.calls ++ [Call.removeFile path] }

/-- Content of the file at path (os.ReadFile). -/
def readFile (w : World) (path : String) : Option (List Nat) :=
  w.files.lookup path

/-- Whether a file exists at path. -/
def hasFile (w : World) (path : String) : Bool :=
  w.files.any (fun f => f.1 == path)

/-- Keys of the PutObject calls, oldest first. -/
def putKeys (w : World) : List String :=
  w.calls.filterMap (fun c =>
    match c with
    | Call.putObject input => some input.Key
    | _ => none)

end World

/-- One file part of a multipart form: the form field it belongs to, the
Content-Type header of the part (empty when the part has none), its bytes, and
whether io.ReadAll on it fails. -/
structure FilePart where
  field : String
  contentType : String
  data : List Nat
  readFails : Bool

/-- A request body: its length in bytes and the file parts, in order, that a
multipart reader finds when it reads the body to the end (none when the
reader returns an error and FormFile finds no form either). -/
structure Body where
  size : Nat
  form : Option (List FilePart)

/-- A reader over a request body, possibly capped by http.MaxBytesReader. -/
structure BodyReader where
  body : Body
  limit : Option Nat

/-- Go http.MaxBytesReader: a new reader that fails once more than n bytes are
read; the reader handed in is left as it is. -/
def MaxBytesReader (rd : BodyReader) (n : Nat) : BodyReader :=
  { rd with limit := some (match rd.limit with
                           | some m => min m n
                           | none => n) }

/-- Go Request.FormFile: the first file of the form field, if the form was
parsed and has one. -/
def FormFile (form : Option (List FilePart)) (key : String) : Option FilePart :=
  match form with
  | none => none
  | some parts => parts.find? (fun p => p.field == key)

/-- Go io.ReadAll on the part. -/
def ReadAll (p : FilePart) : Option (List Nat) :=
  if p.readFails then none else some p.data

/-- An incoming request. -/
structure Request where
  videoID : String
  Header : List (String × String)
  Body : BodyReader

/-- Database handle cfg.db. -/
structure Database where
  GetVideo : Nat → Video × Option String
  UpdateVideo : Video → Option String

/-- Object store client cfg.s3Client. -/
structure S3Client where
  PutObject : PutObjectInput → Option String

/-- The receiver cfg of the handlers. -/
structure apiConfig where
  db : Database
  jwtSecret : String
  assetsRoot : String
  s3Bucket : String
  s3Region : String
  s3Client : S3Client
  port : String

/-- Everything else the handlers reach outside the two source files. -/
structure Platform where
  uuidParse : String → Option Nat
  GetBearerToken : List (String × String) → Option String
  ValidateJWT : String → String → Option Nat
  randRead : Nat → Nat
  TempDir : String
  nextRandom : String
  multipartRandom : String
  createTempFails : Bool
  createFails : String → Bool
  copyFails : Bool
  seekFails : Bool
  ffprobe : String → ProbeRun
  ffmpeg : String → String → RemuxRun

/-- Contents that Go multipart.Reader.ReadForm writes to disk: the parts are
taken in order, a part is kept in memory while it fits into what is left of
maxMemory, and a part that does not fit goes to the temp file. -/
def spilledParts : Nat → List FilePart → List (List Nat)
  | _, [] => []
  | mem, p :: ps =>
    if mem < p.data.length then p.data :: spilledParts mem ps
    else spilledParts (mem - p.data.length) ps

/-- Name of the temp file of Go multipart.Reader.ReadForm:
os.CreateTemp("", "multipart-"). -/
def multipartTempName (os : Platform) : String :=
  joinPath os.TempDir "multipart-" ++ os.multipartRandom

/-- Go Request.ParseMultipartForm: reads the whole body through the reader.
The file parts that do not fit into maxMemory are written, one after the
other, to one temp file in os.TempDir(), which is still there when the handler
returns (the server removes it afterwards); on an error nothing is left on
disk. -/
def ParseMultipartForm (os : Platform) (rd : BodyReader) (maxMemory : Nat) (w : World) :
    World × Option (List FilePart) :=
  let w := w.log Call.parseMultipartForm
  let overLimit :=
    match rd.limit with
    | some n => decide (n < rd.body.size)
    | none => false
  if overLimit then (w, none)
  else
    match rd.body.form with
    | none => (w, none)
    | some parts =>
      match spilledParts maxMemory parts with
      | [] => (w, some parts)
      | d :: ds =>
        ((w.log (Call.createFile (multipartTempName os))).writeFile (multipartTempName os)
          (d :: ds).flatten, some parts)

/-- Body of a response. -/
inductive Payload where
  | error (msg : String)
  | video (v : Video)
  deriving DecidableEq

/-- How a handler ends: a response is written, or the handler panics. -/
inductive Outcome where
  | response (code : Nat) (payload : Payload)
  | panic (msg : String)
  deriving DecidableEq

/-- Modelled from the spec: respondWithError (json.go is not among the source
files) writes a response with the given status and the error message as body. -/
def respondWithError (code : Nat) (msg : String) : Outcome :=
  Outcome.response code (Payload.error msg)

/-- Modelled from the spec: respondWithJSON (json.go is not among the source
files) writes a response with the given status and the record as body. -/
def respondWithJSON (code : Nat) (v : Video) : Outcome :=
  Outcome.response code (Payload.video v)

/-- Status of a response; none for a panic. -/
def Outcome.status : Outcome → Option Nat
  | Outcome.response code _ => some code
  | Outcome.panic _ => none

/-- The 32 bytes of make([]byte, 32) after rand.Read. -/
def randomBytes (os : Platform) : List Nat :=
  (List.range 32).map (fun i => os.randRead i % 256)

/-- Go os.CreateTemp(dir, pattern): the name is the pattern with the random
string put in place of its last star, or appended when it has none, inside dir
(os.TempDir() for an empty dir); the file is created empty. -/
def osCreateTemp (os : Platform) (dir pattern : String) (w : World) :
    Option (String × World) :=
  match prefixAndSuffix pattern with
  | none => none
  | some (pre, suf) =>
    if os.createTempFails then none
    else
      let dir := if dir = "" then os.TempDir else dir
      let name := joinPath dir pre ++ os.nextRandom ++ suf
      some (name, (w.log (Call.createFile name)).writeFile name [])

/-! ## `getVideoAspectRatio` (handler_upload_video.go, lines 40-67) -/

/-- Source getVideoAspectRatio. The two results are the returned pair
(string, error); the unchecked type assertions on the first stream and on
its width and height panic. -/
def getVideoAspectRatio (os : Platform) (filePath : String) :
    Go (String × Option String) :=
  let run := os.ffprobe filePath
  let err := run.exitErr
  match run.decoded with
  | Except.error e =>
    Go.ret ("", some ("failed to unmarshal ffprobe output: " ++ e))
  | Except.ok result =>
    match result.lookup "streams" with
    | some (JVal.arr []) => Go.ret ("", some "no streams found in ffprobe output")
    | some (JVal.arr (first :: _)) =>
      match first with
      | JVal.obj stream =>
        match stream.lookup "width" with
        | some (JVal.num width) =>
          match stream.lookup "height" with
          | some (JVal.num height) =>
            let ratio := getAspectRatioType (F64.fin width) (F64.fin height)
            Go.ret (ratio, err)
          | _ => Go.panic "interface conversion: interface {} is not float64"
        | _ => Go.panic "interface conversion: interface {} is not float64"
      | _ => Go.panic "interface conversion: interface {} is not map[string]interface {}"
    | _ => Go.ret ("", some "no streams found in ffprobe output")

/-! ## `processVideoForFastStart` (handler_upload_video.go, lines 69-79) -/

/-- Source processVideoForFastStart: the output path is built from the first
two pieces of the input path split at every dot; ffmpeg then runs and may leave
a file at the output path. -/
def processVideoForFastStart (os : Platform) (filePath : String) (w : World) :
    World × Go (String × Option String) :=
  match stringsSplit filePath '.' with
  | p0 :: p1 :: _ =>
    let outputFilePath := stringsJoin [p0, "processing", p1] "."
    let run := os.ffmpeg filePath outputFilePath
    let w :=
      match run.written with
      | some data => (w.log (Call.createFile outputFilePath)).writeFile outputFilePath data
      | none => w
    (w, Go.ret (outputFilePath, run.exitErr))
  | _ => (w, Go.panic "index out of range [1] with length 1")

/-! ## `handlerUploadVideo` (handler_upload_video.go, lines 81-226) -/

/-- Source handlerUploadVideo. -/
def handlerUploadVideo (os : Platform) (cfg : apiConfig) (r : Request) (w : World) :
    World × Outcome :=
  let VIDEO_SIZE_LIMIT : Nat := 1 <<< 30
  let _ := MaxBytesReader r.Body VIDEO_SIZE_LIMIT
  match os.uuidParse r.videoID with
  | none => (w, respondWithError 400 "Invalid ID")
  | some videoID =>
  match os.GetBearerToken r.Header with
  | none => (w, respondWithError 401 "Couldn't find JWT")
  | some token =>
  match os.ValidateJWT token cfg.jwtSecret with
  | none => (w, respondWithError 401 "Couldn't validate JWT")
  | some userID =>
  let videoMeta := (cfg.db.GetVideo videoID).1
  if videoMeta.UserID ≠ userID then
    (w, respondWithError 401 "You don't have permission to upload video")
  else
  let parsed := ParseMultipartForm os r.Body VIDEO_SIZE_LIMIT w
  let w := parsed.1
  match FormFile parsed.2 "video" with
  | none => (w, respondWithError 400 "Unable to parse form file")
  | some file =>
  match ReadAll file with
  | none => (w, respondWithError 500 "Failed to read file data")
  | some fileData =>
  let contentType := file.contentType
  match (stringsSplit contentType '/')[1]? with
  | none => (w, Outcome.panic "index out of range [1] with length 1")
  | some fileExt =>
  let (mediaType, err) := mimeParseMediaType contentType
  if err ≠ none ∨ mediaType ≠ "video/mp4" then
    (w, respondWithError 400 "Invalid media type. Only MP4 are allowed")
  else
  let fileId := RawURLEncodingEncodeToString (randomBytes os)
  let filePath := fileId ++ "." ++ fileExt
  match osCreateTemp os "" filePath w with
  | none => (w, respondWithError 500 "Couldn't create temp file")
  | some (tempFile, w) =>
    let (w, out) : World × Outcome :=
      if os.copyFails then (w, respondWithError 500 "Couldn't write file")
      else
      let w := w.writeFile tempFile fileData
      if os.seekFails then
        (w, respondWithError 500 "Failed to seek to beginning of temp file")
      else
      match getVideoAspectRatio os tempFile with
      | Go.panic msg => (w, Outcome.panic msg)
      | Go.ret (ratio, err) =>
      if err ≠ none then (w, respondWithError 500 "Couldn't get video aspect ratio")
      else
      let s3Prefix := s3PrefixOf ratio
      match processVideoForFastStart os tempFile w with
      | (w, Go.panic msg) => (w, Outcome.panic msg)
      | (w, Go.ret (processedVideoPath, err)) =>
      if err ≠ none then
        (w, respondWithError 500 "Couldn't process video for fast start")
      else
      match w.readFile processedVideoPath with
      | none => (w, respondWithError 500 "failed to read processed video file: %v")
      | some processedVideoData =>
      let partsPath := stringsSplit processedVideoPath '/'
      let processedS3FilePath := partsPath.getLastD ""
      let s3FilePath := s3Prefix ++ "/" ++ processedS3FilePath
      let input : PutObjectInput :=
        { Bucket := cfg.s3Bucket, Key := s3FilePath,
          Body := processedVideoData, ContentType := mediaType }
      let w := w.log (Call.putObject input)
      if cfg.s3Client.PutObject input ≠ none then
        (w, respondWithError 500 "Couldn't upload video to S3")
      else
      let videoURL :=
        "https://" ++ cfg.s3Bucket ++ ".s3." ++ cfg.s3Region ++ ".amazonaws.com/" ++ s3FilePath
      let videoMeta := { videoMeta with VideoURL := some videoURL }
      let w := w.log (Call.updateVideo videoMeta)
      if cfg.db.UpdateVideo videoMeta ≠ none then
        (w, respondWithError 500 "Couldn't update video metadata")
      else (w, respondWithJSON 200 videoMeta)
    (w.removeFile tempFile, out)

/-! ## `handlerUploadThumbnail` (handler_upload_thumbnail.go, lines 19-106) -/

/-- Source handlerUploadThumbnail. -/
def handlerUploadThumbnail (os : Platform) (cfg : apiConfig) (r : Request) (w : World) :
    World × Outcome :=
  match os.uuidParse r.videoID with
  | none => (w, respondWithError 400 "Invalid ID")
  | some videoID =>
  match os.GetBearerToken r.Header with
  | none => (w, respondWithError 401 "Couldn't find JWT")
  | some token =>
  match os.ValidateJWT token cfg.jwtSecret with
  | none => (w, respondWithError 401 "Couldn't validate JWT")
  | some userID =>
  let maxMemory : Nat := 10 <<< 20
  let parsed := ParseMultipartForm os r.Body maxMemory w
  let w := parsed.1
  match FormFile parsed.2 "thumbnail" with
  | none => (w, respondWithError 400 "Unable to parse form file")
  | some file =>
  match ReadAll file with
  | none => (w, respondWithError 500 "Failed to read file data")
  | some fileData =>
  let contentType := file.contentType
  match (stringsSplit contentType '/')[1]? with
  | none => (w, Outcome.panic "index out of range [1] with length 1")
  | some fileExt =>
  let (mediaType, err) := mimeParseMediaType contentType
  if err ≠ none ∨ (mediaType ≠ "image/jpeg" ∧ mediaType ≠ "image/png") then
    (w, respondWithError 400 "Invalid media type. Only JPEG and PNG are allowed")
  else
  let videoMeta := (cfg.db.GetVideo videoID).1
  if videoMeta.UserID ≠ userID then
    (w, respondWithError 401 "You don't have permission to upload thumbnails for this video")
  else
  let fileId := RawURLEncodingEncodeToString (randomBytes os)
  let filePath := filepathJoin [cfg.assetsRoot, "/" ++ fileId ++ "." ++ fileExt]
  if os.createFails filePath then (w, respondWithError 500 "Couldn't create file")
  else
  let w := (w.log (Call.createFile filePath)).writeFile filePath []
  if os.copyFails then (w, respondWithError 500 "Couldn't write file")
  else
  let w := w.writeFile filePath fileData
  let thumbnailURL :=
    "http://localhost:" ++ cfg.port ++ "/assets/" ++ fileId ++ "." ++ fileExt
  let videoMeta := { videoMeta with ThumbnailURL := some thumbnailURL }
  let w := w.log (Call.updateVideo videoMeta)
  if cfg.db.UpdateVideo videoMeta ≠ none then
    (w, respondWithError 500 "Couldn't update video metadata")
  else (w, respondWithJSON 200 videoMeta)


/-! ## Sample requests -/

/-- A record owned by user 7. -/
def sampleVideo : Video :=
  { ID := 1, UserID := 7, ThumbnailURL := none, VideoURL := none, Details := "boots" }

/-- A configuration whose database holds sampleVideo and whose stores accept
every write. -/
def sampleConfig : apiConfig :=
  { db := { GetVideo := fun _ => (sampleVideo, none), UpdateVideo := fun _ => none },
    jwtSecret := "secret",
    assetsRoot := "./assets",
    s3Bucket := "tubely",
    s3Region := "us-east-2",
    s3Client := { PutObject := fun _ => none },
    port := "8091" }

/-- A platform on which the credential verifies to caller, the random source
yields zero bytes, every OS call succeeds, ffprobe gives probe and ffmpeg
writes four bytes and exits with status zero. -/
def samplePlatform (caller : Nat) (probe : ProbeRun) : Platform :=
  { uuidParse := fun _ => some 1,
    GetBearerToken := fun _ => some "token",
    ValidateJWT := fun _ _ => some caller,
    randRead := fun _ => 0,
    TempDir := "/tmp",
    nextRandom := "2817365012",
    multipartRandom := "3141592653",
    createTempFails := false,
    createFails := fun _ => false,
    copyFails := false,
    seekFails := false,
    ffprobe := fun _ => probe,
    ffmpeg := fun _ _ => { exitErr := none, written := some [0, 0, 0, 32] } }

/-- An ffprobe run with exit status zero whose first stream has the given
fields. -/
def probeOf (stream : List (String × JVal)) : ProbeRun :=
  { exitErr := none, decoded := Except.ok [("streams", JVal.arr [JVal.obj stream])] }

/-- A request with an uncapped body of the given length and file parts. -/
def sampleRequest (size : Nat) (parts : Option (List FilePart)) : Request :=
  { videoID := "00000000-0000-0000-0000-000000000001",
    Header := [("Authorization", "Bearer token")],
    Body := { body := { size := size, form := parts }, limit := none } }

/-- A readable three-byte file part. -/
def samplePart (field contentType : String) : FilePart :=
  { field := field, contentType := contentType, data := [1, 2, 3], readFails := false }

/-- One byte more than 10 MiB. -/
def largeSize : Nat := 10 <<< 20 + 1

/-- A readable file part of 10 MiB + 1 bytes. -/
def largePart (field contentType : String) : FilePart :=
  { field := field, contentType := contentType, data := List.replicate largeSize 0,
    readFails := false }

/-- A request whose body of 10 MiB + 1000 bytes carries one thumbnail part of
10 MiB + 1 bytes. -/
def largeThumbnailRequest (contentType : String) : Request :=
  sampleRequest (10 <<< 20 + 1000) (some [largePart "thumbnail" contentType])

/-- The identifier minted from 32 zero bytes: 43 times the letter A. -/
def sampleName : String := "AAAAAAAAAAAAAAAAAAAAAAAAAAAAAAAAAAAAAAAAAAA"

/-- An ffprobe run with exit status zero reporting a 1080 by 1920 stream. -/
def portraitProbe : ProbeRun :=
  probeOf [("width", JVal.num 1080), ("height", JVal.num 1920)]

/-- The world before the request: no file, no call. -/
def emptyWorld : World := { files := [], calls := [] }


/-- A 100-byte request carrying one MP4 part in the field video. -/
def videoRequest : Request :=
  sampleRequest 100 (some [samplePart "video" "video/mp4"])

/-- A 100-byte request carrying one thumbnail part of the given Content-Type. -/
def thumbnailRequest (contentType : String) : Request :=
  sampleRequest 100 (some [samplePart "thumbnail" contentType])


/-! # Theorems -/

set_option maxRecDepth 100000

/-! ## Rounding lemmas -/

theorem roundHalfEven_err (x : ℚ) : |(F64.roundHalfEven x : ℚ) - x| ≤ 1 / 2 := by
  unfold F64.roundHalfEven
  have h1 := Int.floor_le x
  have h2 := Int.lt_floor_add_one x
  simp only
  split_ifs with ha hb hc
  · rw [abs_le]; constructor <;> linarith
  · rw [abs_le]; push_cast; constructor <;> linarith
  · rw [abs_le]; constructor <;> linarith
  · rw [abs_le]; push_cast; constructor <;> linarith

theorem floor_le_roundHalfEven (x : ℚ) : ⌊x⌋ ≤ F64.roundHalfEven x := by
  unfold F64.roundHalfEven
  simp only
  split_ifs <;> omega

/-- Rounding a rational of magnitude below 8 gives a finite value within 2^-51. -/
theorem round_near (q : ℚ) (hq : |q| < 8) :
    ∃ y : ℚ, F64.round q = F64.fin y ∧ |y - q| ≤ 1 / 2 ^ 51 := by
  have ha0 : 0 ≤ |q| := abs_nonneg q
  have he : max (Int.log 2 |q|) (-1022) ≤ 2 := by
    apply max_le _ (by norm_num)
    rcases eq_or_lt_of_le ha0 with h0 | hpos
    · rw [← h0, Int.log_of_right_le_zero 2 (le_refl (0 : ℚ))]; norm_num
    · have : Int.log 2 |q| < 3 := by
        rw [← Int.lt_zpow_iff_log_lt (by norm_num) hpos]
        norm_num; exact hq
      omega
  set e : ℤ := max (Int.log 2 |q|) (-1022) with he_def
  set u : ℚ := (2 : ℚ) ^ (e - 52) with hu_def
  have hu0 : 0 < u := zpow_pos (by norm_num) _
  have hu50 : u ≤ 1 / 2 ^ 50 := by
    have h : u ≤ (2 : ℚ) ^ (-50 : ℤ) := zpow_le_zpow_right₀ (by norm_num) (by omega)
    have h' : (2 : ℚ) ^ (-50 : ℤ) = 1 / 2 ^ 50 := by norm_num
    rw [h'] at h; exact h
  set m : ℤ := F64.roundHalfEven (|q| / u) with hm_def
  have herr := roundHalfEven_err (|q| / u)
  have hr : abs ((m : ℚ) * u - |q|) ≤ u / 2 := by
    have : (m : ℚ) * u - |q| = ((m : ℚ) - |q| / u) * u := by
      field_simp
    rw [this, abs_mul, abs_of_pos hu0]
    calc |(m : ℚ) - |q| / u| * u ≤ (1 / 2) * u := by
          apply mul_le_mul_of_nonneg_right herr hu0.le
      _ = u / 2 := by ring
  have hr' := abs_le.mp hr
  have h51 : u / 2 ≤ 1 / 2 ^ 51 := by
    have : (1 : ℚ) / 2 ^ 51 = 1 / 2 ^ 50 / 2 := by norm_num
    rw [this]; linarith
  have hsmall : ¬ ((2 : ℚ) ^ (1024 : ℤ) ≤ (m : ℚ) * u) := by
    have h1 : (m : ℚ) * u ≤ 8 + 1 := by
      have : (1 : ℚ) / 2 ^ 51 ≤ 1 := by norm_num
      linarith [hr'.2]
    have h2 : (9 : ℚ) < (2 : ℚ) ^ (1024 : ℤ) := by norm_num
    linarith
  refine ⟨if q < 0 then -((m : ℚ) * u) else (m : ℚ) * u, ?_, ?_⟩
  · unfold F64.round
    simp only
    rw [if_neg hsmall]
  · split_ifs with hneg
    · have : |q| = -q := abs_of_neg hneg
      rw [this] at hr
      have : -((m : ℚ) * u) - q = -((m : ℚ) * u - -q) := by ring
      rw [this, abs_neg]; linarith
    · have : |q| = q := abs_of_nonneg (not_lt.mp hneg)
      rw [this] at hr
      linarith

/-- Rounding never moves a value across a power of two at or above the smallest normal. -/
theorem round_far (q : ℚ) (k : ℤ) (hk : -1022 ≤ k) (hq : (2 : ℚ) ^ k ≤ |q|) :
    (∃ s, F64.round q = F64.inf s) ∨
    (∃ y : ℚ, F64.round q = F64.fin y ∧ (2 : ℚ) ^ k ≤ |y|) := by
  have hpos : 0 < |q| := lt_of_lt_of_le (zpow_pos (by norm_num) _) hq
  have hlog : k ≤ Int.log 2 |q| := by
    rw [← Int.zpow_le_iff_le_log (by norm_num) hpos]
    exact_mod_cast hq
  have hmax : max (Int.log 2 |q|) (-1022) = Int.log 2 |q| := max_eq_left (by omega)
  set e : ℤ := Int.log 2 |q| with he_def
  set u : ℚ := (2 : ℚ) ^ (e - 52) with hu_def
  have hu0 : 0 < u := zpow_pos (by norm_num) _
  have hle : ((2 : ℕ) : ℚ) ^ e ≤ |q| := Int.zpow_log_le_self (by norm_num) hpos
  have hdiv : ((2 ^ 52 : ℤ) : ℚ) ≤ |q| / u := by
    rw [le_div_iff₀ hu0, hu_def]
    have : ((2 ^ 52 : ℤ) : ℚ) * (2 : ℚ) ^ (e - 52) = (2 : ℚ) ^ e := by
      rw [zpow_sub₀ (by norm_num)]
      norm_num
      ring
    rw [this]; exact_mod_cast hle
  have hfl : (2 ^ 52 : ℤ) ≤ ⌊|q| / u⌋ := Int.le_floor.mpr hdiv
  have hm : (2 ^ 52 : ℤ) ≤ F64.roundHalfEven (|q| / u) :=
    le_trans hfl (floor_le_roundHalfEven _)
  set m : ℤ := F64.roundHalfEven (|q| / u) with hm_def
  have hr : (2 : ℚ) ^ k ≤ (m : ℚ) * u := by
    have h1 : ((2 ^ 52 : ℤ) : ℚ) * u ≤ (m : ℚ) * u :=
      mul_le_mul_of_nonneg_right (by exact_mod_cast hm) hu0.le
    have h2 : ((2 ^ 52 : ℤ) : ℚ) * u = (2 : ℚ) ^ e := by
      rw [hu_def, zpow_sub₀ (by norm_num)]
      norm_num
      ring
    have h3 : (2 : ℚ) ^ k ≤ (2 : ℚ) ^ e := zpow_le_zpow_right₀ (by norm_num) hlog
    linarith
  have hr0 : 0 ≤ (m : ℚ) * u := le_trans (zpow_pos (by norm_num) _).le hr
  by_cases hbig : (2 : ℚ) ^ (1024 : ℤ) ≤ (m : ℚ) * u
  · left
    refine ⟨decide (q < 0), ?_⟩
    unfold F64.round
    simp only
    rw [hmax, if_pos hbig]
  · right
    refine ⟨if q < 0 then -((m : ℚ) * u) else (m : ℚ) * u, ?_, ?_⟩
    · unfold F64.round
      simp only
      rw [hmax, if_neg hbig]
    · split_ifs
      · rw [abs_neg, abs_of_nonneg hr0]; exact hr
      · rw [abs_of_nonneg hr0]; exact hr

theorem tolerance_near :
    ∃ t : ℚ, F64.round (1 / 100) = F64.fin t ∧ |t - 1 / 100| ≤ 1 / 2 ^ 51 :=
  round_near (1 / 100) (by rw [abs_of_pos (by norm_num)]; norm_num)

/-- Inside the tolerance band (with a margin of 1e-14) the float test succeeds. -/
theorem near_test_true (w h c : ℚ) (hh : h ≠ 0) (hc : |c| ≤ 2)
    (hx : |w / h - c| ≤ 1 / 100 - 1 / 10 ^ 14) :
    F64.lt (F64.abs (F64.sub (F64.div (F64.fin w) (F64.fin h)) (F64.round c)))
      (F64.round (1 / 100)) = true := by
  obtain ⟨t, ht, hterr⟩ := tolerance_near
  obtain ⟨c', hc', hcerr⟩ := round_near c (by linarith)
  have hxa := abs_le.mp hx
  have hca := abs_le.mp hc
  have hx8 : |w / h| < 8 := by rw [abs_lt]; constructor <;> linarith
  obtain ⟨y, hy, hyerr⟩ := round_near (w / h) hx8
  have hye := abs_le.mp hyerr
  have hce := abs_le.mp hcerr
  have hte := abs_le.mp hterr
  have hsmall : (1 : ℚ) / 2 ^ 51 ≤ 1 / 10 ^ 15 := by norm_num
  have hd8 : |y - c'| < 8 := by rw [abs_lt]; constructor <;> linarith
  obtain ⟨z, hz, hzerr⟩ := round_near (y - c') hd8
  have hze := abs_le.mp hzerr
  have hdiv : F64.div (F64.fin w) (F64.fin h) = F64.fin y := by
    simp only [F64.div, if_neg hh]; exact hy
  rw [hdiv, hc', ht]
  simp only [F64.sub, hz, F64.abs, F64.lt, decide_eq_true_eq]
  rw [abs_lt]; constructor <;> linarith

/-- Outside the tolerance band (with a margin of 1e-14) the float test fails. -/
theorem near_test_false (w h c : ℚ) (hh : h ≠ 0) (hc : |c| ≤ 2)
    (hx : 1 / 100 + 1 / 10 ^ 14 ≤ |w / h - c|) :
    F64.lt (F64.abs (F64.sub (F64.div (F64.fin w) (F64.fin h)) (F64.round c)))
      (F64.round (1 / 100)) = false := by
  obtain ⟨t, ht, hterr⟩ := tolerance_near
  obtain ⟨c', hc', hcerr⟩ := round_near c (by linarith)
  have hca := abs_le.mp hc
  have hce := abs_le.mp hcerr
  have hte := abs_le.mp hterr
  have hsmall : (1 : ℚ) / 2 ^ 51 ≤ 1 / 10 ^ 15 := by norm_num
  have hdiv : F64.div (F64.fin w) (F64.fin h) = F64.round (w / h) := by
    simp only [F64.div, if_neg hh]
  rw [hdiv, hc', ht]
  by_cases hx4 : |w / h| < 4
  · obtain ⟨y, hy, hyerr⟩ := round_near (w / h) (by linarith)
    have hye := abs_le.mp hyerr
    have hx4' := abs_lt.mp hx4
    have hd8 : |y - c'| < 8 := by rw [abs_lt]; constructor <;> linarith
    obtain ⟨z, hz, hzerr⟩ := round_near (y - c') hd8
    have hze := abs_le.mp hzerr
    rw [hy]
    simp only [F64.sub, hz, F64.abs, F64.lt, decide_eq_false_iff_not, not_lt]
    rcases le_abs'.mp hx with h1 | h1
    · have : z ≤ -(1 / 100 + 1 / 10 ^ 14 - 3 / 10 ^ 12) := by linarith
      calc t ≤ 1 / 100 + 1 / 10 ^ 15 := by linarith
        _ ≤ -z := by linarith
        _ ≤ |z| := neg_le_abs z
    · calc t ≤ 1 / 100 + 1 / 10 ^ 15 := by linarith
        _ ≤ z := by linarith
        _ ≤ |z| := le_abs_self z
  · have h4 : (2 : ℚ) ^ (2 : ℤ) ≤ |w / h| := by
      have : (2 : ℚ) ^ (2 : ℤ) = 4 := by norm_num
      rw [this]; exact not_lt.mp hx4
    rcases round_far (w / h) 2 (by norm_num) h4 with ⟨s, hs⟩ | ⟨y, hy, hylb⟩
    · rw [hs]; simp [F64.sub, F64.abs, F64.lt]
    · rw [hy]
      have hylb' : (4 : ℚ) ≤ |y| := by
        have : (2 : ℚ) ^ (2 : ℤ) = 4 := by norm_num
        rw [this] at hylb; exact hylb
      have hd : (2 : ℚ) ^ (0 : ℤ) ≤ |y - c'| := by
        have : (2 : ℚ) ^ (0 : ℤ) = 1 := by norm_num
        rw [this]
        rcases le_abs'.mp hylb' with h1 | h1
        · calc (1 : ℚ) ≤ -(y - c') := by linarith
            _ ≤ |y - c'| := neg_le_abs _
        · calc (1 : ℚ) ≤ y - c' := by linarith
            _ ≤ |y - c'| := le_abs_self _
      rcases round_far (y - c') 0 (by norm_num) hd with ⟨s, hs⟩ | ⟨z, hz, hzlb⟩
      · simp [F64.sub, hs, F64.abs, F64.lt]
      · have hzlb' : (1 : ℚ) ≤ |z| := by
          have : (2 : ℚ) ^ (0 : ℤ) = 1 := by norm_num
          rw [this] at hzlb; exact hzlb
        simp only [F64.sub, hz, F64.abs, F64.lt, decide_eq_false_iff_not, not_lt]
        linarith

/-! ## Aspect classification -/

/-- Ratio within 0.01 - 1e-14 of 1.7778: the label is 16:9. -/
theorem getAspectRatioType_landscape (w h : ℚ) (hh : h ≠ 0)
    (hx : |w / h - 17778 / 10000| ≤ 1 / 100 - 1 / 10 ^ 14) :
    getAspectRatioType (F64.fin w) (F64.fin h) = "16:9" := by
  have h1 := near_test_true w h (17778 / 10000) hh
    (by rw [abs_of_pos (by norm_num)]; norm_num) hx
  unfold getAspectRatioType
  simp only [h1, if_true]

/-- Ratio at least 0.01 + 1e-14 away from 1.7778 and within 0.01 - 1e-14 of
0.5625: the label is 9:16. -/
theorem getAspectRatioType_portrait (w h : ℚ) (hh : h ≠ 0)
    (hx : 1 / 100 + 1 / 10 ^ 14 ≤ |w / h - 17778 / 10000|)
    (hy : |w / h - 5625 / 10000| ≤ 1 / 100 - 1 / 10 ^ 14) :
    getAspectRatioType (F64.fin w) (F64.fin h) = "9:16" := by
  have h1 := near_test_false w h (17778 / 10000) hh
    (by rw [abs_of_pos (by norm_num)]; norm_num) hx
  have h2 := near_test_true w h (5625 / 10000) hh
    (by rw [abs_of_pos (by norm_num)]; norm_num) hy
  unfold getAspectRatioType
  simp only [h1, h2, if_true, Bool.false_eq_true, if_false]

/-- Ratio at least 0.01 + 1e-14 away from both 1.7778 and 0.5625: the label is
other. -/
theorem getAspectRatioType_other (w h : ℚ) (hh : h ≠ 0)
    (hx : 1 / 100 + 1 / 10 ^ 14 ≤ |w / h - 17778 / 10000|)
    (hy : 1 / 100 + 1 / 10 ^ 14 ≤ |w / h - 5625 / 10000|) :
    getAspectRatioType (F64.fin w) (F64.fin h) = "other" := by
  have h1 := near_test_false w h (17778 / 10000) hh
    (by rw [abs_of_pos (by norm_num)]; norm_num) hx
  have h2 := near_test_false w h (5625 / 10000) hh
    (by rw [abs_of_pos (by norm_num)]; norm_num) hy
  unfold getAspectRatioType
  simp only [h1, h2, Bool.false_eq_true, if_false]

/-- The label is always one of the three strings. -/
theorem getAspectRatioType_cases (width height : F64) :
    getAspectRatioType width height = "16:9" ∨ getAspectRatioType width height = "9:16" ∨
      getAspectRatioType width height = "other" := by
  unfold getAspectRatioType
  simp only
  split_ifs <;> simp

/-- The folder is always one of the three strings. -/
theorem s3PrefixOf_cases (ratio : String) :
    s3PrefixOf ratio = "landscape" ∨ s3PrefixOf ratio = "portrait" ∨
      s3PrefixOf ratio = "other" := by
  unfold s3PrefixOf
  split_ifs <;> simp

theorem s3PrefixOf_landscape : s3PrefixOf "16:9" = "landscape" := by decide

theorem s3PrefixOf_portrait : s3PrefixOf "9:16" = "portrait" := by decide

theorem s3PrefixOf_other : s3PrefixOf "other" = "other" := by decide

/-- C6: composing getAspectRatioType with the handler's folder mapping, the
dimensions (1920,1080), (3840,2160) and (1280,720) give landscape, (1080,1920)
and (720,1280) give portrait, (1000,1000) and (1920,1200) give other, and for
every width and height (finite or not) the folder is one of these three
strings. -/
theorem C6_aspect_classification_vectors :
    s3PrefixOf (getAspectRatioType (F64.fin 1920) (F64.fin 1080)) = "landscape" ∧
    s3PrefixOf (getAspectRatioType (F64.fin 3840) (F64.fin 2160)) = "landscape" ∧
    s3PrefixOf (getAspectRatioType (F64.fin 1280) (F64.fin 720)) = "landscape" ∧
    s3PrefixOf (getAspectRatioType (F64.fin 1080) (F64.fin 1920)) = "portrait" ∧
    s3PrefixOf (getAspectRatioType (F64.fin 720) (F64.fin 1280)) = "portrait" ∧
    s3PrefixOf (getAspectRatioType (F64.fin 1000) (F64.fin 1000)) = "other" ∧
    s3PrefixOf (getAspectRatioType (F64.fin 1920) (F64.fin 1200)) = "other" ∧
    ∀ width height : F64,
      s3PrefixOf (getAspectRatioType width height) = "landscape" ∨
      s3PrefixOf (getAspectRatioType width height) = "portrait" ∨
      s3PrefixOf (getAspectRatioType width height) = "other" := by
  refine ⟨?_, ?_, ?_, ?_, ?_, ?_, ?_, fun width height => s3PrefixOf_cases _⟩
  · rw [getAspectRatioType_landscape 1920 1080 (by norm_num)
      (by rw [abs_le]; constructor <;> norm_num)]
    exact s3PrefixOf_landscape
  · rw [getAspectRatioType_landscape 3840 2160 (by norm_num)
      (by rw [abs_le]; constructor <;> norm_num)]
    exact s3PrefixOf_landscape
  · rw [getAspectRatioType_landscape 1280 720 (by norm_num)
      (by rw [abs_le]; constructor <;> norm_num)]
    exact s3PrefixOf_landscape
  · rw [getAspectRatioType_portrait 1080 1920 (by norm_num)
      (by rw [le_abs]; right; norm_num) (by rw [abs_le]; constructor <;> norm_num)]
    exact s3PrefixOf_portrait
  · rw [getAspectRatioType_portrait 720 1280 (by norm_num)
      (by rw [le_abs]; right; norm_num) (by rw [abs_le]; constructor <;> norm_num)]
    exact s3PrefixOf_portrait
  · rw [getAspectRatioType_other 1000 1000 (by norm_num)
      (by rw [le_abs]; right; norm_num) (by rw [le_abs]; left; norm_num)]
    exact s3PrefixOf_other
  · rw [getAspectRatioType_other 1920 1200 (by norm_num)
      (by rw [le_abs]; right; norm_num) (by rw [le_abs]; left; norm_num)]
    exact s3PrefixOf_other

/-- C7 (as amended): for every width and every non-zero height, with
ratio = width/height as an exact rational, the folder is landscape whenever
|ratio - 1.7778| is at most 0.01 - 1e-14 and is not landscape whenever it is
at least 0.01 + 1e-14; outside the landscape band it is portrait whenever
|ratio - 0.5625| is at most 0.01 - 1e-14, it is not portrait whenever that
distance is at least 0.01 + 1e-14, and it is other whenever both distances
are at least 0.01 + 1e-14. The centre of the landscape band is the
decimal 1.7778 of the source, not 16/9. -/
theorem C7_aspect_class_bands (width height : ℚ) (hh : height ≠ 0) :
    (|width / height - 17778 / 10000| ≤ 1 / 100 - 1 / 10 ^ 14 →
      s3PrefixOf (getAspectRatioType (F64.fin width) (F64.fin height)) = "landscape") ∧
    (1 / 100 + 1 / 10 ^ 14 ≤ |width / height - 17778 / 10000| →
      s3PrefixOf (getAspectRatioType (F64.fin width) (F64.fin height)) ≠ "landscape") ∧
    (1 / 100 + 1 / 10 ^ 14 ≤ |width / height - 17778 / 10000| →
      |width / height - 5625 / 10000| ≤ 1 / 100 - 1 / 10 ^ 14 →
      s3PrefixOf (getAspectRatioType (F64.fin width) (F64.fin height)) = "portrait") ∧
    (1 / 100 + 1 / 10 ^ 14 ≤ |width / height - 5625 / 10000| →
      s3PrefixOf (getAspectRatioType (F64.fin width) (F64.fin height)) ≠ "portrait") ∧
    (1 / 100 + 1 / 10 ^ 14 ≤ |width / height - 17778 / 10000| →
      1 / 100 + 1 / 10 ^ 14 ≤ |width / height - 5625 / 10000| →
      s3PrefixOf (getAspectRatioType (F64.fin width) (F64.fin height)) = "other") := by
  refine ⟨fun h1 => ?_, fun h1 => ?_, fun h1 h2 => ?_, fun h2 => ?_, fun h1 h2 => ?_⟩
  · rw [getAspectRatioType_landscape width height hh h1]; exact s3PrefixOf_landscape
  · have ht := near_test_false width height (17778 / 10000) hh
      (by rw [abs_of_pos (by norm_num)]; norm_num) h1
    unfold getAspectRatioType
    simp only [ht, Bool.false_eq_true, if_false]
    split_ifs <;> decide
  · rw [getAspectRatioType_portrait width height hh h1 h2]; exact s3PrefixOf_portrait
  · have ht := near_test_false width height (5625 / 10000) hh
      (by rw [abs_of_pos (by norm_num)]; norm_num) h2
    unfold getAspectRatioType
    simp only [ht, Bool.false_eq_true, if_false]
    split_ifs <;> decide
  · rw [getAspectRatioType_other width height hh h1 h2]; exact s3PrefixOf_other

/-- C7 (witness): the bands at 1920 by 1080. -/
theorem C7_aspect_class_bands_witness :
    (1080 : ℚ) ≠ 0 ∧
    s3PrefixOf (getAspectRatioType (F64.fin 1920) (F64.fin 1080)) = "landscape" :=
  ⟨by norm_num,
   (C7_aspect_class_bands 1920 1080 (by norm_num)).1
     (by rw [abs_le]; constructor <;> norm_num)⟩

/-- C7 (counterexample): at 1609 by 900 the ratio is exactly 0.01 above 16/9,
so the stated rule says not landscape, yet the code answers landscape; at
176779 by 100000 the ratio is within 0.01 of 16/9, so the stated rule says
landscape, yet the code answers other. -/
theorem C7_counterexample :
    ¬ (s3PrefixOf (getAspectRatioType (F64.fin 1609) (F64.fin 900)) = "landscape" ↔
        |(1609 : ℚ) / 900 - 16 / 9| < 1 / 100) ∧
    ¬ (s3PrefixOf (getAspectRatioType (F64.fin 176779) (F64.fin 100000)) = "landscape" ↔
        |(176779 : ℚ) / 100000 - 16 / 9| < 1 / 100) := by
  constructor
  · intro h
    have hl : s3PrefixOf (getAspectRatioType (F64.fin 1609) (F64.fin 900)) = "landscape" := by
      rw [getAspectRatioType_landscape 1609 900 (by norm_num)
        (by rw [abs_le]; constructor <;> norm_num)]
      exact s3PrefixOf_landscape
    have := h.mp hl
    rw [abs_lt] at this
    norm_num at this
  · intro h
    have hr : |(176779 : ℚ) / 100000 - 16 / 9| < 1 / 100 := by
      rw [abs_lt]; constructor <;> norm_num
    have hl := h.mpr hr
    rw [getAspectRatioType_other 176779 100000 (by norm_num)
      (by rw [le_abs]; right; norm_num) (by rw [le_abs]; left; norm_num)] at hl
    revert hl
    decide

/-! ## Strings and base64 -/

theorem splitChars_ne_nil (sep : Char) (l : List Char) : splitChars sep l ≠ [] := by
  induction l with
  | nil => simp [splitChars]
  | cons c cs ih =>
    unfold splitChars
    split_ifs
    · simp
    · split <;> simp

/-- A list without the separator is its own single piece. -/
theorem splitChars_of_not_mem (sep : Char) (l : List Char) (h : sep ∉ l) :
    splitChars sep l = [l] := by
  induction l with
  | nil => simp [splitChars]
  | cons c cs ih =>
    have hc : c ≠ sep := fun e => h (by simp [e])
    have hcs : sep ∉ cs := fun e => h (by simp [e])
    unfold splitChars
    rw [if_neg hc, ih hcs]

theorem splitChars_cons_of_ne (sep c : Char) (cs : List Char) (hc : c ≠ sep) :
    splitChars sep (c :: cs) =
      (c :: (splitChars sep cs).headD []) :: (splitChars sep cs).tail := by
  rw [splitChars, if_neg hc]
  cases hs : splitChars sep cs with
  | nil => exact absurd hs (splitChars_ne_nil sep cs)
  | cons p ps => simp

/-- Splitting distributes over a separator in the middle. -/
theorem splitChars_append_sep (sep : Char) (a b : List Char) :
    splitChars sep (a ++ sep :: b) = splitChars sep a ++ splitChars sep b := by
  induction a with
  | nil => simp [splitChars]
  | cons c cs ih =>
    by_cases hc : c = sep
    · simp [splitChars, hc, ← ih]
    · rw [List.cons_append, splitChars_cons_of_ne sep c _ hc,
        splitChars_cons_of_ne sep c _ hc, ih]
      cases hs : splitChars sep cs with
      | nil => exact absurd hs (splitChars_ne_nil sep cs)
      | cons p ps => simp

/-- No piece of a split contains the separator. -/
theorem not_mem_of_mem_splitChars (sep : Char) (l p : List Char)
    (hp : p ∈ splitChars sep l) : sep ∉ p := by
  induction l generalizing p with
  | nil => simp [splitChars] at hp; simp [hp]
  | cons c cs ih =>
    unfold splitChars at hp
    split_ifs at hp with hc
    · rcases List.mem_cons.mp hp with h | h
      · simp [h]
      · exact ih p h
    · cases hs : splitChars sep cs with
      | nil => exact absurd hs (splitChars_ne_nil sep cs)
      | cons q qs =>
        rw [hs] at hp
        simp only [List.mem_cons] at hp
        rcases hp with h | h
        · rw [h]
          have hq := ih q (by rw [hs]; simp)
          intro hm
          rcases List.mem_cons.mp hm with e | e
          · exact hc e.symm
          · exact hq e
        · exact ih p (by rw [hs]; simp [h])

theorem cutLast_of_not_mem (c : Char) (l : List Char) (h : c ∉ l) : cutLast c l = none := by
  induction l with
  | nil => simp [cutLast]
  | cons x xs ih =>
    have hx : x ≠ c := fun e => h (by simp [e])
    have hxs : c ∉ xs := fun e => h (by simp [e])
    simp [cutLast, ih hxs, hx]

/-- Length of the unpadded encoding: ceil(4n/3). -/
theorem rawURLEncode_length : ∀ l : List Nat,
    (rawURLEncode l).length = (4 * l.length + 2) / 3
  | [] => by simp [rawURLEncode]
  | [_] => by simp [rawURLEncode]
  | [_, _] => by simp [rawURLEncode]
  | _ :: _ :: _ :: rest => by
    simp only [rawURLEncode, List.length_cons, rawURLEncode_length rest]
    omega

theorem encodeChar_mem (val : Nat) : encodeChar val ∈ encodeURL := by
  unfold encodeChar
  have h : val % 64 < encodeURL.length := by
    have : encodeURL.length = 64 := by decide
    rw [this]; exact Nat.mod_lt _ (by norm_num)
  rw [List.getD_eq_getElem _ _ h]
  exact List.getElem_mem h

/-- Every character of the encoding is in the URL-safe alphabet. -/
theorem rawURLEncode_mem : ∀ (l : List Nat) (c : Char), c ∈ rawURLEncode l → c ∈ encodeURL
  | [], c, h => by simp [rawURLEncode] at h
  | [_], c, h => by
    simp only [rawURLEncode, List.mem_cons, List.mem_singleton, List.not_mem_nil, or_false] at h
    rcases h with h | h <;> rw [h] <;> exact encodeChar_mem _
  | [_, _], c, h => by
    simp only [rawURLEncode, List.mem_cons, List.mem_singleton, List.not_mem_nil, or_false] at h
    rcases h with h | h | h <;> rw [h] <;> exact encodeChar_mem _
  | _ :: _ :: _ :: rest, c, h => by
    simp only [rawURLEncode, List.mem_cons] at h
    rcases h with h | h | h | h | h
    · rw [h]; exact encodeChar_mem _
    · rw [h]; exact encodeChar_mem _
    · rw [h]; exact encodeChar_mem _
    · rw [h]; exact encodeChar_mem _
    · exact rawURLEncode_mem rest c h

theorem randomBytes_length (os : Platform) : (randomBytes os).length = 32 := by
  simp [randomBytes]

/-- The identifier minted from 32 random bytes has 43 characters. -/
theorem fileId_length (os : Platform) :
    (RawURLEncodingEncodeToString (randomBytes os)).length = 43 := by
  unfold RawURLEncodingEncodeToString
  rw [String.length_mk, rawURLEncode_length, randomBytes_length]

/-- The identifier consists of characters of the URL-safe alphabet. -/
theorem fileId_alphabet (os : Platform) (c : Char)
    (h : c ∈ (RawURLEncodingEncodeToString (randomBytes os)).data) : c ∈ encodeURL :=
  rawURLEncode_mem _ c h

theorem not_mem_fileId (os : Platform) (c : Char) (hc : c ∉ encodeURL) :
    c ∉ (RawURLEncodingEncodeToString (randomBytes os)).data :=
  fun h => hc (fileId_alphabet os c h)

/-! ## Cleaned paths -/

theorem splitChars_intercalate : ∀ elems : List (List Char), elems ≠ [] →
    (∀ e ∈ elems, '/' ∉ e) → splitChars '/' (List.intercalate ['/'] elems) = elems
  | [], h, _ => absurd rfl h
  | [e], _, hp => by
    have : List.intercalate ['/'] [e] = e := by simp [List.intercalate]
    rw [this]
    exact splitChars_of_not_mem _ _ (hp e (by simp))
  | e :: e1 :: rest, _, hp => by
    have : List.intercalate ['/'] (e :: e1 :: rest) =
        e ++ '/' :: List.intercalate ['/'] (e1 :: rest) := by
      simp [List.intercalate]
    rw [this, splitChars_append_sep, splitChars_of_not_mem _ _ (hp e (by simp)),
      splitChars_intercalate (e1 :: rest) (by simp) (fun x hx => hp x (by simp [hx]))]
    rfl

theorem cleanElems_plain (rooted : Bool) : ∀ (elems rest out : List (List Char)),
    (∀ e ∈ elems, plainElem e) →
    cleanElems rooted (elems ++ rest) out = cleanElems rooted rest (elems.reverse ++ out)
  | [], rest, out, _ => by simp
  | e :: es, rest, out, hp => by
    obtain ⟨h1, h2, h3, _⟩ := hp e (by simp)
    have h12 : ¬(e = [] ∨ e = ['.']) := by
      rintro (h | h)
      · exact h1 h
      · exact h2 h
    have hstep : cleanElems rooted (e :: (es ++ rest)) out =
        cleanElems rooted (es ++ rest) (e :: out) := by
      conv_lhs => unfold cleanElems
      simp only [if_neg h12, if_neg h3]
    rw [List.cons_append, hstep,
      cleanElems_plain rooted es rest (e :: out) (fun x hx => hp x (by simp [hx]))]
    simp

theorem intercalate_append_single (elems : List (List Char)) (f : List Char)
    (hne : elems ≠ []) :
    List.intercalate ['/'] (elems ++ [f]) = List.intercalate ['/'] elems ++ '/' :: f := by
  induction elems with
  | nil => exact absurd rfl hne
  | cons e es ih =>
    cases es with
    | nil => simp [List.intercalate]
    | cons e1 rest =>
      have h1 : List.intercalate ['/'] (e :: e1 :: rest ++ [f]) =
          e ++ '/' :: List.intercalate ['/'] (e1 :: rest ++ [f]) := by
        simp [List.intercalate]
      have h2 : List.intercalate ['/'] (e :: e1 :: rest) =
          e ++ '/' :: List.intercalate ['/'] (e1 :: rest) := by
        simp [List.intercalate]
      rw [h1, h2, ih (by simp)]
      simp

/-- Joining a file name onto a relative root made of plain elements only
appends a slash and the name. -/
theorem filepathJoin_plain (elems : List (List Char)) (f : List Char)
    (hne : elems ≠ []) (hp : ∀ e ∈ elems, plainElem e) (hf : plainElem f) :
    filepathJoin [String.mk (List.intercalate ['/'] elems), String.mk ('/' :: f)] =
      String.mk (List.intercalate ['/'] elems ++ '/' :: f) := by
  obtain ⟨e0, es, rfl⟩ := List.exists_cons_of_ne_nil hne
  obtain ⟨c0, cs, hc0⟩ := List.exists_cons_of_ne_nil (hp e0 (by simp)).1
  have hc0s : c0 ≠ '/' := by
    intro h
    exact (hp e0 (by simp)).2.2.2 (by rw [hc0, h]; simp)
  have hhead : ∃ tl, List.intercalate ['/'] (e0 :: es) = c0 :: tl := by
    cases es with
    | nil => exact ⟨cs, by simp [List.intercalate, hc0]⟩
    | cons e1 rest => exact ⟨_, by simp [List.intercalate, hc0]; rfl⟩
  obtain ⟨tl, htl⟩ := hhead
  have hsl : ∀ e ∈ e0 :: es, '/' ∉ e := fun e he => (hp e he).2.2.2
  have hrootne : String.mk (List.intercalate ['/'] (e0 :: es)) ≠ "" := by
    intro h
    have := congrArg String.data h
    rw [htl] at this
    exact absurd this (by simp)
  have hjoin : (stringsJoin [String.mk (List.intercalate ['/'] (e0 :: es)),
      String.mk ('/' :: f)] "/").data =
      List.intercalate ['/'] (e0 :: es) ++ '/' :: '/' :: f := by
    simp [stringsJoin, String.data_append]
  have hsplit : splitChars '/' (List.intercalate ['/'] (e0 :: es) ++ '/' :: '/' :: f) =
      (e0 :: es) ++ [[], f] := by
    rw [splitChars_append_sep, splitChars_intercalate _ hne hsl]
    have : splitChars '/' ('/' :: f) = [[], f] := by
      rw [splitChars, if_pos rfl, splitChars_of_not_mem _ f hf.2.2.2]
    rw [this]
  have hclean : cleanElems false ((e0 :: es) ++ [[], f]) [] = f :: (e0 :: es).reverse := by
    rw [cleanElems_plain false (e0 :: es) [[], f] [] hp]
    have h12 : ¬(f = [] ∨ f = ['.']) := by
      rintro (h | h)
      · exact hf.1 h
      · exact hf.2.1 h
    simp [cleanElems, h12, hf.2.2.1]
  unfold filepathJoin
  rw [if_neg hrootne]
  unfold filepathClean
  have hne2 : stringsJoin [String.mk (List.intercalate ['/'] (e0 :: es)),
      String.mk ('/' :: f)] "/" ≠ "" := by
    intro h
    have := congrArg String.data h
    rw [hjoin, htl] at this
    exact absurd this (by simp)
  rw [if_neg hne2]
  have hrooted : ¬((List.intercalate ['/'] (e0 :: es) ++ '/' :: '/' :: f).head? = some '/') := by
    rw [htl]
    simp [hc0s]
  have hfin : List.intercalate ['/'] ((e0 :: es).reverse.reverse ++ [f]) =
      List.intercalate ['/'] (e0 :: es) ++ '/' :: f := by
    rw [List.reverse_reverse]
    exact intercalate_append_single _ _ hne
  have hres : String.mk (List.intercalate ['/'] (e0 :: es) ++ '/' :: f) ≠ "" := by
    intro h
    have := congrArg String.data h
    rw [htl] at this
    exact absurd this (by simp)
  have hdec : decide ((List.intercalate ['/'] (e0 :: es) ++ '/' :: '/' :: f).head? = some '/') =
      false := decide_eq_false hrooted
  have hrev : (f :: (e0 :: es).reverse).reverse = (e0 :: es).reverse.reverse ++ [f] := by
    rw [List.reverse_cons]
  simp only [hjoin, hsplit, if_neg hrooted, hdec, hclean, hrev, hfin, if_neg hres]

/-! ## The multipart parser -/

/-- Parts that together fit into maxMemory all stay in memory. -/
theorem spilledParts_of_sum_le : ∀ (parts : List FilePart) (mem : Nat),
    (parts.map (fun p => p.data.length)).sum ≤ mem → spilledParts mem parts = []
  | [], _, _ => rfl
  | p :: ps, mem, h => by
    simp only [List.map_cons, List.sum_cons] at h
    have h1 : ¬ mem < p.data.length := by omega
    rw [spilledParts, if_neg h1]
    exact spilledParts_of_sum_le ps _ (by omega)

/-- The form found by the parser is the form of the body when the body arrives
uncapped. -/
theorem ParseMultipartForm_form (os : Platform) (rd : BodyReader) (maxMemory : Nat)
    (w : World) (hraw : rd.limit = none) :
    (ParseMultipartForm os rd maxMemory w).2 = rd.body.form := by
  unfold ParseMultipartForm
  simp only [hraw, Bool.false_eq_true, if_false]
  cases rd.body.form with
  | none => rfl
  | some parts =>
    simp only
    cases spilledParts maxMemory parts <;> rfl

/-- The parser adds to the log its own entry and, when it spills, the
creation of its temp file; nothing else. -/
theorem ParseMultipartForm_calls (os : Platform) (rd : BodyReader) (maxMemory : Nat)
    (w : World) :
    (ParseMultipartForm os rd maxMemory w).1.calls = w.calls ++ [Call.parseMultipartForm] ∨
    (ParseMultipartForm os rd maxMemory w).1.calls =
      w.calls ++ [Call.parseMultipartForm, Call.createFile (multipartTempName os)] := by
  unfold ParseMultipartForm
  simp only
  split_ifs
  · left; rfl
  · cases rd.body.form with
    | none => left; rfl
    | some parts =>
      simp only
      cases spilledParts maxMemory parts with
      | nil => left; rfl
      | cons d ds =>
        right
        simp [World.log, World.writeFile]

/-- The only file the parser can add is its temp file. -/
theorem ParseMultipartForm_files (os : Platform) (rd : BodyReader) (maxMemory : Nat)
    (w : World) (f : String × List Nat)
    (hf : f ∈ (ParseMultipartForm os rd maxMemory w).1.files) :
    f ∈ w.files ∨ f.1 = multipartTempName os := by
  unfold ParseMultipartForm at hf
  simp only at hf
  split_ifs at hf
  · left; exact hf
  · cases hform : rd.body.form with
    | none => rw [hform] at hf; left; exact hf
    | some parts =>
      rw [hform] at hf
      simp only at hf
      cases hs : spilledParts maxMemory parts with
      | nil => rw [hs] at hf; left; exact hf
      | cons d ds =>
        rw [hs] at hf
        simp only [World.writeFile, World.log, List.mem_cons, List.mem_filter] at hf
        rcases hf with h | h
        · right; rw [h]
        · left; exact h.1

/-- When the file parts together have at most maxMemory bytes, or there is no
form, the parser only adds its entry to the log. -/
theorem ParseMultipartForm_in_memory (os : Platform) (rd : BodyReader) (maxMemory : Nat)
    (w : World)
    (h : ∀ parts, rd.body.form = some parts →
      (parts.map (fun p => p.data.length)).sum ≤ maxMemory) :
    (ParseMultipartForm os rd maxMemory w).1 = w.log Call.parseMultipartForm := by
  unfold ParseMultipartForm
  simp only
  split_ifs
  · rfl
  · cases hform : rd.body.form with
    | none => rfl
    | some parts =>
      simp only
      rw [spilledParts_of_sum_le parts maxMemory (h parts hform)]

/-- A single part larger than maxMemory goes to the temp file. -/
theorem ParseMultipartForm_spill_single (os : Platform) (rd : BodyReader) (maxMemory : Nat)
    (w : World) (p : FilePart) (hraw : rd.limit = none) (hform : rd.body.form = some [p])
    (hbig : maxMemory < p.data.length) :
    ParseMultipartForm os rd maxMemory w =
      (((w.log Call.parseMultipartForm).log (Call.createFile (multipartTempName os))).writeFile
        (multipartTempName os) (p.data ++ []), some [p]) := by
  unfold ParseMultipartForm
  simp only [hraw, hform, spilledParts, if_pos hbig, Bool.false_eq_true, if_false,
    List.flatten]

/-- The large sample part exceeds 10 MiB. -/
theorem largePart_length (field contentType : String) :
    10 <<< 20 < (largePart field contentType).data.length := by
  show 10 <<< 20 < (List.replicate largeSize (0 : Nat)).length
  rw [List.length_replicate]
  decide

/-- The parser on the large sample request: the part of 10 MiB + 1 bytes goes
to the temp file. -/
theorem ParseMultipartForm_large (caller : Nat) (probe : ProbeRun) (contentType : String) :
    ParseMultipartForm (samplePlatform caller probe) (largeThumbnailRequest contentType).Body
        (10 <<< 20) emptyWorld =
      (((emptyWorld.log Call.parseMultipartForm).log
          (Call.createFile (multipartTempName (samplePlatform caller probe)))).writeFile
        (multipartTempName (samplePlatform caller probe))
        ((largePart "thumbnail" contentType).data ++ []),
       some [largePart "thumbnail" contentType]) :=
  ParseMultipartForm_spill_single _ _ _ _ _ rfl rfl (largePart_length _ _)


theorem mimeParseMediaType_png : mimeParseMediaType "image/png" = ("image/png", none) := by
  decide

theorem mimeParseMediaType_jpeg : mimeParseMediaType "image/jpeg" = ("image/jpeg", none) := by
  decide

/-! ## Handlers -/

theorem status_respondWithError (code : Nat) (msg : String) :
    (respondWithError code msg).status = some code := rfl

theorem mem_calls_log (w : World) (c d : Call) (h : c ∈ w.calls ∨ c = d) :
    c ∈ (w.log d).calls := by
  simp only [World.log, List.mem_append, List.mem_singleton]
  exact h

theorem mem_calls_removeFile (w : World) (c : Call) (p : String) (h : c ∈ w.calls) :
    c ∈ (w.removeFile p).calls := by
  simp only [World.removeFile, List.mem_append, List.mem_singleton]
  exact Or.inl h

theorem readFile_writeFile (w : World) (p : String) (data : List Nat) :
    (w.writeFile p data).readFile p = some data := by
  simp [World.readFile, World.writeFile, List.lookup]

theorem readFile_log (w : World) (c : Call) (p : String) :
    (w.log c).readFile p = w.readFile p := rfl

/-- What an accepted thumbnail upload went through. -/
theorem handlerUploadThumbnail_accepted (os : Platform) (cfg : apiConfig) (r : Request)
    (w : World) (h : (handlerUploadThumbnail os cfg r w).2.status = some 200) :
    ∃ videoID token userID file fileData fileExt,
      os.uuidParse r.videoID = some videoID ∧
      os.GetBearerToken r.Header = some token ∧
      os.ValidateJWT token cfg.jwtSecret = some userID ∧
      FormFile (ParseMultipartForm os r.Body (10 <<< 20) w).2 "thumbnail" = some file ∧
      ReadAll file = some fileData ∧
      (stringsSplit file.contentType '/')[1]? = some fileExt ∧
      (mimeParseMediaType file.contentType).2 = none ∧
      ((mimeParseMediaType file.contentType).1 = "image/jpeg" ∨
        (mimeParseMediaType file.contentType).1 = "image/png") ∧
      (cfg.db.GetVideo videoID).1.UserID = userID ∧
      handlerUploadThumbnail os cfg r w =
        (((((ParseMultipartForm os r.Body (10 <<< 20) w).1.log
              (Call.createFile (filepathJoin [cfg.assetsRoot,
                "/" ++ RawURLEncodingEncodeToString (randomBytes os) ++ "." ++ fileExt]))).writeFile
              (filepathJoin [cfg.assetsRoot,
                "/" ++ RawURLEncodingEncodeToString (randomBytes os) ++ "." ++ fileExt])
              []).writeFile
              (filepathJoin [cfg.assetsRoot,
                "/" ++ RawURLEncodingEncodeToString (randomBytes os) ++ "." ++ fileExt])
              fileData).log
            (Call.updateVideo { (cfg.db.GetVideo videoID).1 with
              ThumbnailURL := some ("http://localhost:" ++ cfg.port ++ "/assets/" ++
                RawURLEncodingEncodeToString (randomBytes os) ++ "." ++ fileExt) }),
          respondWithJSON 200 { (cfg.db.GetVideo videoID).1 with
              ThumbnailURL := some ("http://localhost:" ++ cfg.port ++ "/assets/" ++
                RawURLEncodingEncodeToString (randomBytes os) ++ "." ++ fileExt) }) := by
  have e : (10 <<< 20 : Nat) = 10485760 := by decide
  simp only [handlerUploadThumbnail, e] at h ⊢
  cases h1 : os.uuidParse r.videoID with
  | none => simp [h1, status_respondWithError] at h
  | some videoID =>
  cases h2 : os.GetBearerToken r.Header with
  | none => simp [h1, h2, status_respondWithError] at h
  | some token =>
  cases h3 : os.ValidateJWT token cfg.jwtSecret with
  | none => simp [h1, h2, h3, status_respondWithError] at h
  | some userID =>
  cases h4 : FormFile (ParseMultipartForm os r.Body 10485760 w).2 "thumbnail" with
  | none => simp [h1, h2, h3, h4, status_respondWithError] at h
  | some file =>
  cases h5 : ReadAll file with
  | none => simp [h1, h2, h3, h4, h5, status_respondWithError] at h
  | some fileData =>
  cases h6 : (stringsSplit file.contentType '/')[1]? with
  | none => simp [h1, h2, h3, h4, h5, h6, Outcome.status] at h
  | some fileExt =>
  simp only [h1, h2, h3, h4, h5, h6] at h ⊢
  split_ifs at h with h7 h8 h9 h10 h11
  · simp [status_respondWithError] at h
  · simp [status_respondWithError] at h
  · simp [status_respondWithError] at h
  · simp [status_respondWithError] at h
  · simp [status_respondWithError] at h
  · refine ⟨videoID, token, userID, file, fileData, fileExt, rfl, rfl, h3, rfl, h5, h6, ?_, ?_, ?_, ?_⟩
    · by_contra hc; exact h7 (Or.inl hc)
    · by_contra hc
      push_neg at hc
      exact h7 (Or.inr hc)
    · exact not_not.mp h8
    · rw [if_neg h7, if_neg h8, if_neg h9, if_neg h10, if_neg h11]

/-- What a successful video upload went through. -/
theorem handlerUploadVideo_accepted (os : Platform) (cfg : apiConfig) (r : Request)
    (w : World) (h : (handlerUploadVideo os cfg r w).2.status = some 200) :
    ∃ videoID token userID file fileData fileExt tempFile w1 ratio processedVideoPath w2
        processedVideoData,
      os.uuidParse r.videoID = some videoID ∧
      os.GetBearerToken r.Header = some token ∧
      os.ValidateJWT token cfg.jwtSecret = some userID ∧
      (cfg.db.GetVideo videoID).1.UserID = userID ∧
      FormFile (ParseMultipartForm os r.Body (1 <<< 30) w).2 "video" = some file ∧
      ReadAll file = some fileData ∧
      (stringsSplit file.contentType '/')[1]? = some fileExt ∧
      (mimeParseMediaType file.contentType).2 = none ∧
      (mimeParseMediaType file.contentType).1 = "video/mp4" ∧
      osCreateTemp os "" (RawURLEncodingEncodeToString (randomBytes os) ++ "." ++ fileExt)
        (ParseMultipartForm os r.Body (1 <<< 30) w).1 = some (tempFile, w1) ∧
      getVideoAspectRatio os tempFile = Go.ret (ratio, none) ∧
      processVideoForFastStart os tempFile (w1.writeFile tempFile fileData) =
        (w2, Go.ret (processedVideoPath, none)) ∧
      w2.readFile processedVideoPath = some processedVideoData ∧
      handlerUploadVideo os cfg r w =
        ((((w2.log (Call.putObject
              { Bucket := cfg.s3Bucket,
                Key := s3PrefixOf ratio ++ "/" ++ (stringsSplit processedVideoPath '/').getLastD "",
                Body := processedVideoData,
                ContentType := "video/mp4" })).log
            (Call.updateVideo { (cfg.db.GetVideo videoID).1 with
              VideoURL := some ("https://" ++ cfg.s3Bucket ++ ".s3." ++ cfg.s3Region ++
                ".amazonaws.com/" ++ (s3PrefixOf ratio ++ "/" ++
                  (stringsSplit processedVideoPath '/').getLastD "")) })).removeFile tempFile),
          respondWithJSON 200 { (cfg.db.GetVideo videoID).1 with
              VideoURL := some ("https://" ++ cfg.s3Bucket ++ ".s3." ++ cfg.s3Region ++
                ".amazonaws.com/" ++ (s3PrefixOf ratio ++ "/" ++
                  (stringsSplit processedVideoPath '/').getLastD "")) }) := by
  have e : (1 <<< 30 : Nat) = 1073741824 := by decide
  simp only [handlerUploadVideo, e] at h ⊢
  cases h1 : os.uuidParse r.videoID with
  | none => simp [h1, status_respondWithError] at h
  | some videoID =>
  cases h2 : os.GetBearerToken r.Header with
  | none => simp [h1, h2, status_respondWithError] at h
  | some token =>
  cases h3 : os.ValidateJWT token cfg.jwtSecret with
  | none => simp [h1, h2, h3, status_respondWithError] at h
  | some userID =>
  simp only [h1, h2, h3] at h ⊢
  by_cases h4 : (cfg.db.GetVideo videoID).1.UserID = userID
  swap
  · simp [h4, status_respondWithError] at h
  rw [if_neg (not_not_intro h4)] at h ⊢
  cases h5 : FormFile (ParseMultipartForm os r.Body 1073741824 w).2 "video" with
  | none => simp [h5, status_respondWithError] at h
  | some file =>
  cases h6 : ReadAll file with
  | none => simp [h5, h6, status_respondWithError] at h
  | some fileData =>
  cases h7 : (stringsSplit file.contentType '/')[1]? with
  | none => simp [h5, h6, h7, Outcome.status] at h
  | some fileExt =>
  simp only [h5, h6, h7] at h ⊢
  by_cases h8 : ¬(mimeParseMediaType file.contentType).2 = none ∨
      ¬(mimeParseMediaType file.contentType).1 = "video/mp4"
  · simp [h8, status_respondWithError] at h
  rw [if_neg h8] at h ⊢
  push_neg at h8
  obtain ⟨h8a, h8b⟩ := h8
  cases h9 : osCreateTemp os ""
      (RawURLEncodingEncodeToString (randomBytes os) ++ "." ++ fileExt)
      (ParseMultipartForm os r.Body 1073741824 w).1 with
  | none => simp [h9, status_respondWithError] at h
  | some tw =>
  obtain ⟨tempFile, w1⟩ := tw
  simp only [h9] at h ⊢
  by_cases h10 : os.copyFails = true
  · simp [h10, status_respondWithError] at h
  rw [if_neg h10] at h ⊢
  by_cases h11 : os.seekFails = true
  · simp [h11, status_respondWithError] at h
  rw [if_neg h11] at h ⊢
  cases h12 : getVideoAspectRatio os tempFile with
  | panic msg => simp [h12, Outcome.status] at h
  | ret re =>
  obtain ⟨ratio, err⟩ := re
  simp only [h12] at h ⊢
  by_cases h13 : ¬err = none
  · simp [h13, status_respondWithError] at h
  rw [if_neg h13] at h ⊢
  have h13' : err = none := not_not.mp h13
  subst h13'
  cases h14 : processVideoForFastStart os tempFile (w1.writeFile tempFile fileData) with
  | mk w2 res =>
  cases res with
  | panic msg => simp [h14, Outcome.status] at h
  | ret pe =>
  obtain ⟨processedVideoPath, err2⟩ := pe
  simp only [h14] at h ⊢
  by_cases h15 : ¬err2 = none
  · simp [h15, status_respondWithError] at h
  rw [if_neg h15] at h ⊢
  have h15' : err2 = none := not_not.mp h15
  subst h15'
  cases h16 : w2.readFile processedVideoPath with
  | none => simp [h16, status_respondWithError] at h
  | some processedVideoData =>
  simp only [h16] at h ⊢
  rw [h8b] at h ⊢
  split_ifs at h with h17 h18
  · simp [status_respondWithError] at h
  · simp [status_respondWithError] at h
  · rw [if_neg h17, if_neg h18]
    exact ⟨videoID, token, userID, file, fileData, fileExt, tempFile, w1, ratio,
      processedVideoPath, w2, processedVideoData, rfl, rfl, h3, h4, rfl, h6, h7, h8a, h8b,
      h9, h12, h14, h16, rfl⟩

/-! ## Sample runs -/

/-- The probe of a 1080 by 1920 file is labelled 9:16. -/
theorem getAspectRatioType_1080_1920 :
    getAspectRatioType (F64.fin 1080) (F64.fin 1920) = "9:16" :=
  getAspectRatioType_portrait 1080 1920 (by norm_num)
    (by rw [le_abs]; right; norm_num) (by rw [abs_le]; constructor <;> norm_num)

/-- On the sample platform the probe of a 1080 by 1920 stream returns 9:16
and no error. -/
theorem getVideoAspectRatio_sample (caller : Nat) (p : String) :
    getVideoAspectRatio (samplePlatform caller portraitProbe) p = Go.ret ("9:16", none) := by
  simp [getVideoAspectRatio, samplePlatform, portraitProbe, probeOf, List.lookup,
    getAspectRatioType_1080_1920]

/-- The sample video upload, evaluated: the temp file is created and removed,
the remux output stays, the object is put under the portrait folder and the
record is updated. -/
theorem handlerUploadVideo_sample :
    handlerUploadVideo (samplePlatform 7 portraitProbe) sampleConfig videoRequest emptyWorld =
      ({ files := [("/tmp/" ++ sampleName ++ ".processing.mp42817365012", [0, 0, 0, 32])],
         calls :=
          [Call.parseMultipartForm,
           Call.createFile ("/tmp/" ++ sampleName ++ ".mp42817365012"),
           Call.createFile ("/tmp/" ++ sampleName ++ ".processing.mp42817365012"),
           Call.putObject
            { Bucket := "tubely",
              Key := "portrait/" ++ sampleName ++ ".processing.mp42817365012",
              Body := [0, 0, 0, 32],
              ContentType := "video/mp4" },
           Call.updateVideo
            { sampleVideo with
              VideoURL := some ("https://tubely.s3.us-east-2.amazonaws.com/portrait/" ++
                sampleName ++ ".processing.mp42817365012") },
           Call.removeFile ("/tmp/" ++ sampleName ++ ".mp42817365012")] },
       respondWithJSON 200
        { sampleVideo with
          VideoURL := some ("https://tubely.s3.us-east-2.amazonaws.com/portrait/" ++
            sampleName ++ ".processing.mp42817365012") }) := by
  unfold handlerUploadVideo
  simp only [getVideoAspectRatio_sample]
  decide

/-- C2: a part whose Content-Type header is empty, or has no slash, makes
both handlers panic at the index expression strings.Split(contentType, "/")[1],
before the media type is looked at; no 400 is written. -/
theorem C2_content_type_without_slash_panics :
    (handlerUploadThumbnail (samplePlatform 7 portraitProbe) sampleConfig
        (thumbnailRequest "") emptyWorld).2 =
      Outcome.panic "index out of range [1] with length 1" ∧
    (handlerUploadVideo (samplePlatform 7 portraitProbe) sampleConfig
        (sampleRequest 100 (some [samplePart "video" ""])) emptyWorld).2 =
      Outcome.panic "index out of range [1] with length 1" ∧
    (handlerUploadThumbnail (samplePlatform 7 portraitProbe) sampleConfig
        (thumbnailRequest "image") emptyWorld).2 =
      Outcome.panic "index out of range [1] with length 1" := by
  decide

/-- C4: after the successful sample upload the temp file created by
os.CreateTemp is gone, but the remux output written at the path returned by
processVideoForFastStart is still in the scratch directory. -/
theorem C4_remux_output_left_behind :
    (handlerUploadVideo (samplePlatform 7 portraitProbe) sampleConfig videoRequest
        emptyWorld).2.status = some 200 ∧
    (handlerUploadVideo (samplePlatform 7 portraitProbe) sampleConfig videoRequest
        emptyWorld).1.hasFile ("/tmp/" ++ sampleName ++ ".mp42817365012") = false ∧
    (handlerUploadVideo (samplePlatform 7 portraitProbe) sampleConfig videoRequest
        emptyWorld).1.hasFile ("/tmp/" ++ sampleName ++ ".processing.mp42817365012") = true := by
  rw [handlerUploadVideo_sample]
  decide

/-- C5: ffprobe exits with status zero and reports a first stream without
width and height (an audio stream): getVideoAspectRatio panics at the
unchecked type assertion instead of returning an error, and handlerUploadVideo
ends in that panic instead of a 500 response. -/
theorem C5_probe_without_dimensions_panics :
    getVideoAspectRatio (samplePlatform 7 (probeOf [("codec_type", JVal.str "audio")]))
        "/tmp/clip.mp4" =
      Go.panic "interface conversion: interface {} is not float64" ∧
    (handlerUploadVideo (samplePlatform 7 (probeOf [("codec_type", JVal.str "audio")]))
        sampleConfig videoRequest emptyWorld).2 =
      Outcome.panic "interface conversion: interface {} is not float64" := by
  constructor
  · simp [getVideoAspectRatio, samplePlatform, probeOf, List.lookup]
  · decide

/-- C8: for the input path /var/tmp.d/clip.mp4123, which has a dot in a
directory name, the output path is /var/tmp.processing.d/clip, and for
clip.final.mp4, which has two dots in the file name, it is
clip.processing.final: the token is not inserted before the final extension
and the extension is lost. -/
theorem C8_more_than_one_dot :
    (processVideoForFastStart (samplePlatform 7 portraitProbe) "/var/tmp.d/clip.mp4123"
        emptyWorld).2 = Go.ret ("/var/tmp.processing.d/clip", none) ∧
    (processVideoForFastStart (samplePlatform 7 portraitProbe) "clip.final.mp4"
        emptyWorld).2 = Go.ret ("clip.processing.final", none) := by
  decide

/-! ## Owner gate and size cap -/

/-- A caller who is not the owner: all handlerUploadThumbnail does to the
world is what parsing the body does. -/
theorem handlerUploadThumbnail_not_owner (os : Platform) (cfg : apiConfig) (r : Request)
    (w : World) (videoID : Nat) (token : String) (userID : Nat)
    (hid : os.uuidParse r.videoID = some videoID)
    (htok : os.GetBearerToken r.Header = some token)
    (hjwt : os.ValidateJWT token cfg.jwtSecret = some userID)
    (howner : (cfg.db.GetVideo videoID).1.UserID ≠ userID) :
    (handlerUploadThumbnail os cfg r w).1 = (ParseMultipartForm os r.Body (10 <<< 20) w).1 := by
  simp only [handlerUploadThumbnail, hid, htok, hjwt]
  split
  · rfl
  · split
    · rfl
    · split
      · rfl
      · split_ifs <;> rfl

/-- The owner, a readable thumbnail part declared exactly image/jpeg or
image/png, and a file system and database that accept the writes: the upload
succeeds. Nothing is asked of the length of the body or of the part. -/
theorem handlerUploadThumbnail_success (os : Platform) (cfg : apiConfig) (r : Request)
    (w : World) (videoID : Nat) (token : String) (userID : Nat) (file : FilePart)
    (ext : String)
    (hid : os.uuidParse r.videoID = some videoID)
    (htok : os.GetBearerToken r.Header = some token)
    (hjwt : os.ValidateJWT token cfg.jwtSecret = some userID)
    (howner : (cfg.db.GetVideo videoID).1.UserID = userID)
    (hfile : FormFile (ParseMultipartForm os r.Body (10 <<< 20) w).2 "thumbnail" = some file)
    (hread : file.readFails = false)
    (hext : ext = "jpeg" ∨ ext = "png") (hct : file.contentType = "image/" ++ ext)
    (hcreate : ∀ p, os.createFails p = false) (hcopy : os.copyFails = false)
    (hupd : ∀ v, cfg.db.UpdateVideo v = none) :
    handlerUploadThumbnail os cfg r w =
      (((((ParseMultipartForm os r.Body (10 <<< 20) w).1.log
              (Call.createFile (filepathJoin [cfg.assetsRoot,
                "/" ++ RawURLEncodingEncodeToString (randomBytes os) ++ "." ++ ext]))).writeFile
              (filepathJoin [cfg.assetsRoot,
                "/" ++ RawURLEncodingEncodeToString (randomBytes os) ++ "." ++ ext])
              []).writeFile
              (filepathJoin [cfg.assetsRoot,
                "/" ++ RawURLEncodingEncodeToString (randomBytes os) ++ "." ++ ext])
              file.data).log
            (Call.updateVideo { (cfg.db.GetVideo videoID).1 with
              ThumbnailURL := some ("http://localhost:" ++ cfg.port ++ "/assets/" ++
                RawURLEncodingEncodeToString (randomBytes os) ++ "." ++ ext) }),
          respondWithJSON 200 { (cfg.db.GetVideo videoID).1 with
              ThumbnailURL := some ("http://localhost:" ++ cfg.port ++ "/assets/" ++
                RawURLEncodingEncodeToString (randomBytes os) ++ "." ++ ext) }) := by
  have e : (10 <<< 20 : Nat) = 10485760 := by decide
  rw [e] at hfile
  have hra : ReadAll file = some file.data := by simp [ReadAll, hread]
  have hsplit : (stringsSplit file.contentType '/')[1]? = some ext := by
    rw [hct]
    rcases hext with h | h <;> rw [h] <;> decide
  have hmime : ¬((mimeParseMediaType file.contentType).2 ≠ none ∨
      (mimeParseMediaType file.contentType).1 ≠ "image/jpeg" ∧
        (mimeParseMediaType file.contentType).1 ≠ "image/png") := by
    rw [hct]
    rcases hext with h | h <;> rw [h] <;> decide
  simp only [handlerUploadThumbnail, hid, htok, hjwt, e, hfile, hra, hsplit]
  rw [if_neg hmime, if_neg (not_not_intro howner)]
  simp only [hcreate, hcopy, hupd, Bool.false_eq_true, if_false, ne_eq, not_true_eq_false]

/-- C1 (as amended): for a request with a well-formed videoID whose credential
verifies to an identity different from the owner of the record returned by
GetVideo, and for every body: handlerUploadVideo answers 401 before the body
is parsed and leaves the world as it was. handlerUploadThumbnail parses the
body first, and all it does to the world is what the parser does: no
UpdateVideo, no PutObject, no file of its own; the parser writes a temp file
(multipart- and a random suffix, in the temp directory) when a part does not
fit into the 10 MiB memory threshold, and no file at all when the parts
together have at most 10 MiB. handlerUploadThumbnail answers 401 whenever the
body passes the intake and the type gate, which it runs before the owner
check. -/
theorem C1_owner_gate (os : Platform) (cfg : apiConfig) (r : Request) (w : World)
    (videoID : Nat) (token : String) (userID : Nat)
    (hid : os.uuidParse r.videoID = some videoID)
    (htok : os.GetBearerToken r.Header = some token)
    (hjwt : os.ValidateJWT token cfg.jwtSecret = some userID)
    (howner : (cfg.db.GetVideo videoID).1.UserID ≠ userID) :
    (∀ body : BodyReader,
      handlerUploadVideo os cfg { r with Body := body } w =
        (w, respondWithError 401 "You don't have permission to upload video")) ∧
    (∀ body : BodyReader,
      (handlerUploadThumbnail os cfg { r with Body := body } w).1 =
        (ParseMultipartForm os body (10 <<< 20) w).1) ∧
    (∀ (body : BodyReader) (c : Call),
      c ∈ (handlerUploadThumbnail os cfg { r with Body := body } w).1.calls →
      c ∈ w.calls ∨ c = Call.parseMultipartForm ∨
        c = Call.createFile (multipartTempName os)) ∧
    (∀ (body : BodyReader) (f : String × List Nat),
      f ∈ (handlerUploadThumbnail os cfg { r with Body := body } w).1.files →
      f ∈ w.files ∨ f.1 = multipartTempName os) ∧
    (∀ body : BodyReader,
      (∀ parts, body.body.form = some parts →
        (parts.map (fun p => p.data.length)).sum ≤ 10 <<< 20) →
      (handlerUploadThumbnail os cfg { r with Body := body } w).1 =
        w.log Call.parseMultipartForm) ∧
    (∀ (body : BodyReader) (file : FilePart) (fileData : List Nat) (fileExt : String),
      FormFile (ParseMultipartForm os body (10 <<< 20) w).2 "thumbnail" = some file →
      ReadAll file = some fileData →
      (stringsSplit file.contentType '/')[1]? = some fileExt →
      (mimeParseMediaType file.contentType).2 = none →
      ((mimeParseMediaType file.contentType).1 = "image/jpeg" ∨
        (mimeParseMediaType file.contentType).1 = "image/png") →
      (handlerUploadThumbnail os cfg { r with Body := body } w).2 =
        respondWithError 401
          "You don't have permission to upload thumbnails for this video") := by
  have e : (10 <<< 20 : Nat) = 10485760 := by decide
  have hw : ∀ body : BodyReader,
      (handlerUploadThumbnail os cfg { r with Body := body } w).1 =
        (ParseMultipartForm os body (10 <<< 20) w).1 := fun body =>
    handlerUploadThumbnail_not_owner os cfg { r with Body := body } w videoID token userID
      hid htok hjwt howner
  refine ⟨fun body => ?_, hw, fun body c hc => ?_, fun body f hf => ?_, fun body hsum => ?_,
    fun body file fileData fileExt h1 h2 h3 h4 h5 => ?_⟩
  · simp only [handlerUploadVideo, hid, htok, hjwt]
    rw [if_pos howner]
  · rw [hw body] at hc
    rcases ParseMultipartForm_calls os body (10 <<< 20) w with h | h
    · rw [h] at hc
      simp only [List.mem_append, List.mem_singleton] at hc
      rcases hc with hc | hc
      · exact Or.inl hc
      · exact Or.inr (Or.inl hc)
    · rw [h] at hc
      simp only [List.mem_append, List.mem_cons, List.mem_singleton, List.not_mem_nil,
        or_false] at hc
      rcases hc with hc | hc | hc
      · exact Or.inl hc
      · exact Or.inr (Or.inl hc)
      · exact Or.inr (Or.inr hc)
  · rw [hw body] at hf
    exact ParseMultipartForm_files os body (10 <<< 20) w f hf
  · rw [hw body]
    exact ParseMultipartForm_in_memory os body (10 <<< 20) w hsum
  · rw [e] at h1
    simp only [handlerUploadThumbnail, hid, htok, hjwt, e, h1, h2, h3]
    have h6 : ¬((mimeParseMediaType file.contentType).2 ≠ none ∨
        (mimeParseMediaType file.contentType).1 ≠ "image/jpeg" ∧
          (mimeParseMediaType file.contentType).1 ≠ "image/png") := by
      rintro (h | ⟨ha, hb⟩)
      · exact h h4
      · rcases h5 with h5 | h5
        · exact ha h5
        · exact hb h5
    rw [if_neg h6, if_pos howner]

/-- C1 (witness): caller 8 on the record of owner 7. -/
theorem C1_owner_gate_witness :
    (sampleConfig.db.GetVideo 1).1.UserID ≠ 8 ∧
    handlerUploadVideo (samplePlatform 8 portraitProbe) sampleConfig
        videoRequest emptyWorld =
      (emptyWorld, respondWithError 401 "You don't have permission to upload video") :=
  ⟨by decide,
   (C1_owner_gate (samplePlatform 8 portraitProbe) sampleConfig
      videoRequest emptyWorld 1 "token" 8
      rfl rfl rfl (by decide)).1
      videoRequest.Body⟩

/-- C1 (counterexample): caller 8 is not the owner 7 of the record, yet
handlerUploadThumbnail answers 400, not 401 or 403, when the body has no
thumbnail part and when the part is a GIF; and for a PNG part of 10 MiB + 1
bytes a file has been created when the handler returns: the temp file of the
multipart parser. -/
theorem C1_counterexample :
    (sampleConfig.db.GetVideo 1).1.UserID ≠ 8 ∧
    (handlerUploadThumbnail (samplePlatform 8 portraitProbe) sampleConfig
        (sampleRequest 100 (some [])) emptyWorld).2 =
      respondWithError 400 "Unable to parse form file" ∧
    (handlerUploadThumbnail (samplePlatform 8 portraitProbe) sampleConfig
        (thumbnailRequest "image/gif") emptyWorld).2 =
      respondWithError 400 "Invalid media type. Only JPEG and PNG are allowed" ∧
    (handlerUploadThumbnail (samplePlatform 8 portraitProbe) sampleConfig
        (largeThumbnailRequest "image/png") emptyWorld).1.files.map Prod.fst =
      ["/tmp/multipart-3141592653"] := by
  refine ⟨by decide, by decide, by decide, ?_⟩
  rw [handlerUploadThumbnail_not_owner (samplePlatform 8 portraitProbe) sampleConfig
    (largeThumbnailRequest "image/png") emptyWorld 1 "token" 8 rfl rfl rfl (by decide),
    ParseMultipartForm_large]
  rfl

/-- C3 (as amended): handlerUploadThumbnail applies no cap, neither to the
request body nor to the part. 10 MiB is only the memory threshold handed to
ParseMultipartForm, above which a part is written to a temp file instead of
being kept in memory. Whatever the length of the body and of the part, a
request of the owner that passes the other gates (a readable thumbnail part
declared image/jpeg or image/png, writes accepted by the file system and the
database) is answered 200, the part's bytes are stored under the assets root
and the record is updated; so a body of cap + 1 bytes or longer does not fail
with PayloadTooLarge, and one of exactly cap bytes succeeds. -/
theorem C3_thumbnail_body_uncapped (os : Platform) (cfg : apiConfig) (r : Request)
    (w : World) (videoID : Nat) (token : String) (userID : Nat) (parts : List FilePart)
    (file : FilePart) (ext : String)
    (hid : os.uuidParse r.videoID = some videoID)
    (htok : os.GetBearerToken r.Header = some token)
    (hjwt : os.ValidateJWT token cfg.jwtSecret = some userID)
    (howner : (cfg.db.GetVideo videoID).1.UserID = userID)
    (hraw : r.Body.limit = none)
    (hform : r.Body.body.form = some parts)
    (hfile : parts.find? (fun p => p.field == "thumbnail") = some file)
    (hread : file.readFails = false)
    (hext : ext = "jpeg" ∨ ext = "png") (hct : file.contentType = "image/" ++ ext)
    (hcreate : ∀ p, os.createFails p = false) (hcopy : os.copyFails = false)
    (hupd : ∀ v, cfg.db.UpdateVideo v = none) :
    (handlerUploadThumbnail os cfg r w).2.status = some 200 ∧
    (handlerUploadThumbnail os cfg r w).1.readFile (filepathJoin [cfg.assetsRoot,
        "/" ++ RawURLEncodingEncodeToString (randomBytes os) ++ "." ++ ext]) =
      some file.data ∧
    ∃ v : Video,
      v.ThumbnailURL = some ("http://localhost:" ++ cfg.port ++ "/assets/" ++
        RawURLEncodingEncodeToString (randomBytes os) ++ "." ++ ext) ∧
      Call.updateVideo v ∈ (handlerUploadThumbnail os cfg r w).1.calls ∧
      (handlerUploadThumbnail os cfg r w).2 = respondWithJSON 200 v := by
  have hff : FormFile (ParseMultipartForm os r.Body (10 <<< 20) w).2 "thumbnail" =
      some file := by
    rw [ParseMultipartForm_form os r.Body _ w hraw, hform]
    exact hfile
  have heq := handlerUploadThumbnail_success os cfg r w videoID token userID file ext
    hid htok hjwt howner hff hread hext hct hcreate hcopy hupd
  refine ⟨?_, ?_,
    { (cfg.db.GetVideo videoID).1 with
      ThumbnailURL := some ("http://localhost:" ++ cfg.port ++ "/assets/" ++
        RawURLEncodingEncodeToString (randomBytes os) ++ "." ++ ext) }, rfl, ?_, ?_⟩
  · rw [heq]; rfl
  · rw [heq, readFile_log, readFile_writeFile]
  · rw [heq]
    apply mem_calls_log
    right
    rfl
  · rw [heq]

/-- C3 (witness): the owner's request of 10 MiB + 1000 bytes with a PNG part
of 10 MiB + 1 bytes is answered 200. -/
theorem C3_thumbnail_body_uncapped_witness :
    10 <<< 20 < (largeThumbnailRequest "image/png").Body.body.size ∧
    (handlerUploadThumbnail (samplePlatform 7 portraitProbe) sampleConfig
        (largeThumbnailRequest "image/png") emptyWorld).2.status = some 200 :=
  ⟨by decide,
   (C3_thumbnail_body_uncapped (samplePlatform 7 portraitProbe) sampleConfig
      (largeThumbnailRequest "image/png") emptyWorld 1 "token" 7
      [largePart "thumbnail" "image/png"] (largePart "thumbnail" "image/png") "png"
      rfl rfl rfl rfl rfl rfl rfl rfl (Or.inr rfl) rfl (fun _ => rfl) rfl
      (fun _ => rfl)).1⟩

/-- C3 (counterexample): a thumbnail request whose body has 10 MiB + 1000
bytes and carries a PNG part of 10 MiB + 1 bytes is answered 200 and its file
is created under the assets root (next to the temp file of the parser):
nothing fails with PayloadTooLarge. -/
theorem C3_counterexample :
    10 <<< 20 < (largeThumbnailRequest "image/png").Body.body.size ∧
    10 <<< 20 < (largePart "thumbnail" "image/png").data.length ∧
    (handlerUploadThumbnail (samplePlatform 7 portraitProbe) sampleConfig
        (largeThumbnailRequest "image/png") emptyWorld).2.status = some 200 ∧
    (handlerUploadThumbnail (samplePlatform 7 portraitProbe) sampleConfig
        (largeThumbnailRequest "image/png") emptyWorld).1.files.map Prod.fst =
      ["assets/" ++ sampleName ++ ".png", "/tmp/multipart-3141592653"] := by
  have heq := handlerUploadThumbnail_success (samplePlatform 7 portraitProbe) sampleConfig
    (largeThumbnailRequest "image/png") emptyWorld 1 "token" 7
    (largePart "thumbnail" "image/png") "png" rfl rfl rfl rfl
    (by rw [ParseMultipartForm_large]; rfl) rfl (Or.inr rfl) rfl (fun _ => rfl) rfl
    (fun _ => rfl)
  refine ⟨by decide, largePart_length _ _, ?_, ?_⟩
  · rw [heq]; rfl
  · rw [heq, ParseMultipartForm_large]
    rfl

/-- The video handler and its size limit: the reader returned by
http.MaxBytesReader is dropped, so a request of the owner whose body has
1 GiB + 1 bytes is parsed and answered 200, although the comment above the
call says that the size is limited. -/
theorem handlerUploadVideo_over_limit_accepted :
    (handlerUploadVideo (samplePlatform 7 portraitProbe) sampleConfig
        (sampleRequest (1 <<< 30 + 1) (some [samplePart "video" "video/mp4"]))
        emptyWorld).2.status = some 200 := by
  unfold handlerUploadVideo
  simp only [getVideoAspectRatio_sample]
  decide

/-! ## Names, keys and URLs -/

/-- What a probe that returned a label and no error has seen: an exit status
of zero and a first stream with a numeric width and height, from which the
label is computed. -/
theorem getVideoAspectRatio_ret (os : Platform) (p ratio : String)
    (h : getVideoAspectRatio os p = Go.ret (ratio, none)) :
    ∃ (result stream : List (String × JVal)) (rest : List JVal) (width height : ℚ),
      (os.ffprobe p).exitErr = none ∧
      (os.ffprobe p).decoded = Except.ok result ∧
      result.lookup "streams" = some (JVal.arr (JVal.obj stream :: rest)) ∧
      stream.lookup "width" = some (JVal.num width) ∧
      stream.lookup "height" = some (JVal.num height) ∧
      ratio = getAspectRatioType (F64.fin width) (F64.fin height) := by
  unfold getVideoAspectRatio at h
  simp only at h
  cases hd : (os.ffprobe p).decoded with
  | error e => rw [hd] at h; simp at h
  | ok result =>
    rw [hd] at h
    simp only at h
    cases hs : result.lookup "streams" with
    | none => rw [hs] at h; simp at h
    | some sv =>
      rw [hs] at h
      cases sv with
      | null => simp at h
      | bool b => simp at h
      | num x => simp at h
      | str s => simp at h
      | obj fields => simp at h
      | arr items =>
        cases items with
        | nil => simp at h
        | cons first rest =>
          simp only at h
          cases first with
          | null => simp at h
          | bool b => simp at h
          | num x => simp at h
          | str s => simp at h
          | arr xs => simp at h
          | obj stream =>
            simp only at h
            cases hw : stream.lookup "width" with
            | none => rw [hw] at h; simp at h
            | some wv =>
              rw [hw] at h
              cases wv with
              | null => simp at h
              | bool b => simp at h
              | str s => simp at h
              | arr xs => simp at h
              | obj fields => simp at h
              | num width =>
                simp only at h
                cases hh : stream.lookup "height" with
                | none => rw [hh] at h; simp at h
                | some hv =>
                  rw [hh] at h
                  cases hv with
                  | null => simp at h
                  | bool b => simp at h
                  | str s => simp at h
                  | arr xs => simp at h
                  | obj fields => simp at h
                  | num height =>
                    simp only [Go.ret.injEq, Prod.mk.injEq] at h
                    exact ⟨result, stream, rest, width, height, h.2, rfl, hs, hw, hh,
                      h.1.symm⟩

theorem putKeys_log_putObject (w : World) (input : PutObjectInput) :
    (w.log (Call.putObject input)).putKeys = w.putKeys ++ [input.Key] := by
  simp [World.putKeys, World.log, List.filterMap_append]

theorem putKeys_log_updateVideo (w : World) (v : Video) :
    (w.log (Call.updateVideo v)).putKeys = w.putKeys := by
  simp [World.putKeys, World.log, List.filterMap_append]

theorem putKeys_log_createFile (w : World) (p : String) :
    (w.log (Call.createFile p)).putKeys = w.putKeys := by
  simp [World.putKeys, World.log, List.filterMap_append]

theorem putKeys_removeFile (w : World) (p : String) :
    (w.removeFile p).putKeys = w.putKeys := by
  simp [World.putKeys, World.removeFile, List.filterMap_append]

theorem putKeys_writeFile (w : World) (p : String) (data : List Nat) :
    (w.writeFile p data).putKeys = w.putKeys := rfl

theorem putKeys_ParseMultipartForm (os : Platform) (rd : BodyReader) (maxMemory : Nat)
    (w : World) : (ParseMultipartForm os rd maxMemory w).1.putKeys = w.putKeys := by
  rcases ParseMultipartForm_calls os rd maxMemory w with h | h <;>
    simp [World.putKeys, h, List.filterMap_append]

theorem putKeys_osCreateTemp (os : Platform) (dir pattern tempFile : String) (w w1 : World)
    (h : osCreateTemp os dir pattern w = some (tempFile, w1)) : w1.putKeys = w.putKeys := by
  unfold osCreateTemp at h
  cases hp : prefixAndSuffix pattern with
  | none => rw [hp] at h; simp at h
  | some ps =>
    obtain ⟨pre, suf⟩ := ps
    rw [hp] at h
    simp only at h
    split_ifs at h <;>
      (simp only [Option.some.injEq, Prod.mk.injEq] at h
       rw [← h.2, putKeys_writeFile, putKeys_log_createFile])

theorem putKeys_processVideoForFastStart (os : Platform) (filePath : String) (w w2 : World)
    (res : Go (String × Option String))
    (h : processVideoForFastStart os filePath w = (w2, res)) : w2.putKeys = w.putKeys := by
  unfold processVideoForFastStart at h
  split at h
  · simp only [Prod.mk.injEq] at h
    rw [← h.1]
    split
    · rw [putKeys_writeFile, putKeys_log_createFile]
    · rfl
  · simp only [Prod.mk.injEq] at h
    rw [← h.1]

/-- The last piece of a split at slashes has no slash. -/
theorem not_slash_getLastD (s : String) :
    '/' ∉ ((stringsSplit s '/').getLastD "").data := by
  unfold stringsSplit
  have hne : (splitChars '/' s.data).map String.mk ≠ [] := by
    simp [splitChars_ne_nil]
  rw [List.getLastD_eq_getLast?, List.getLast?_eq_getLast _ hne, Option.getD_some]
  have hm := List.getLast_mem hne
  obtain ⟨p, hp, hpe⟩ := List.mem_map.mp hm
  rw [← hpe]
  exact not_mem_of_mem_splitChars '/' s.data p hp

/-- C9 (as amended): for every successful video upload, with id the URL-safe
unpadded base64 rendering of the 32 random bytes, which has 43 characters, and
prefix the folder that getAspectRatioType and the handler's mapping give for
the width and height of the first stream that ffprobe reports for the temp
file (one of landscape, portrait, other): exactly one PutObject is made, with
the bytes of the remux output as body and video/mp4 as content type; its key
is {prefix}/{name}, where name, which has no slash, is the last path element
of the path that processVideoForFastStart returns for the temp file, and the
temp file is the one os.CreateTemp makes for the pattern {id}.{ext} (ext is
mp4 for a part declared exactly video/mp4); the video_url written to the
record and returned is https://{bucket}.s3.{region}.amazonaws.com/ followed by
that same key. -/
theorem C9_object_key_and_url (os : Platform) (cfg : apiConfig) (r : Request) (w : World)
    (h : (handlerUploadVideo os cfg r w).2.status = some 200) :
    ∃ (file : FilePart) (fileData : List Nat)
        (fileExt tempFile processedVideoPath name key : String) (w1 w2 : World)
        (result stream : List (String × JVal)) (rest : List JVal) (width height : ℚ)
        (v : Video) (body : List Nat),
      (RawURLEncodingEncodeToString (randomBytes os)).length = 43 ∧
      (∀ c ∈ (RawURLEncodingEncodeToString (randomBytes os)).data, c ∈ encodeURL) ∧
      FormFile (ParseMultipartForm os r.Body (1 <<< 30) w).2 "video" = some file ∧
      ReadAll file = some fileData ∧
      (stringsSplit file.contentType '/')[1]? = some fileExt ∧
      (file.contentType = "video/mp4" → fileExt = "mp4") ∧
      osCreateTemp os "" (RawURLEncodingEncodeToString (randomBytes os) ++ "." ++ fileExt)
        (ParseMultipartForm os r.Body (1 <<< 30) w).1 = some (tempFile, w1) ∧
      (os.ffprobe tempFile).exitErr = none ∧
      (os.ffprobe tempFile).decoded = Except.ok result ∧
      result.lookup "streams" = some (JVal.arr (JVal.obj stream :: rest)) ∧
      stream.lookup "width" = some (JVal.num width) ∧
      stream.lookup "height" = some (JVal.num height) ∧
      processVideoForFastStart os tempFile (w1.writeFile tempFile fileData) =
        (w2, Go.ret (processedVideoPath, none)) ∧
      w2.readFile processedVideoPath = some body ∧
      name = (stringsSplit processedVideoPath '/').getLastD "" ∧
      '/' ∉ name.data ∧
      key = s3PrefixOf (getAspectRatioType (F64.fin width) (F64.fin height)) ++ "/" ++ name ∧
      (s3PrefixOf (getAspectRatioType (F64.fin width) (F64.fin height)) = "landscape" ∨
        s3PrefixOf (getAspectRatioType (F64.fin width) (F64.fin height)) = "portrait" ∨
        s3PrefixOf (getAspectRatioType (F64.fin width) (F64.fin height)) = "other") ∧
      (handlerUploadVideo os cfg r w).1.putKeys = w.putKeys ++ [key] ∧
      Call.putObject { Bucket := cfg.s3Bucket, Key := key, Body := body,
                       ContentType := "video/mp4" } ∈
        (handlerUploadVideo os cfg r w).1.calls ∧
      v.VideoURL =
        some ("https://" ++ cfg.s3Bucket ++ ".s3." ++ cfg.s3Region ++ ".amazonaws.com/" ++ key) ∧
      Call.updateVideo v ∈ (handlerUploadVideo os cfg r w).1.calls ∧
      (handlerUploadVideo os cfg r w).2 = respondWithJSON 200 v := by
  obtain ⟨videoID, token, userID, file, fileData, fileExt, tempFile, w1, ratio,
    processedVideoPath, w2, processedVideoData, _, _, _, _, h5, h6, h7, _, _, h10, h11, h12,
    h13, heq⟩ := handlerUploadVideo_accepted os cfg r w h
  obtain ⟨result, stream, rest, width, height, hp1, hp2, hp3, hp4, hp5, hratio⟩ :=
    getVideoAspectRatio_ret os tempFile ratio h11
  subst hratio
  refine ⟨file, fileData, fileExt, tempFile, processedVideoPath,
    (stringsSplit processedVideoPath '/').getLastD "",
    s3PrefixOf (getAspectRatioType (F64.fin width) (F64.fin height)) ++ "/" ++
      (stringsSplit processedVideoPath '/').getLastD "",
    w1, w2, result, stream, rest, width, height,
    { (cfg.db.GetVideo videoID).1 with
      VideoURL := some ("https://" ++ cfg.s3Bucket ++ ".s3." ++ cfg.s3Region ++
        ".amazonaws.com/" ++ (s3PrefixOf (getAspectRatioType (F64.fin width)
          (F64.fin height)) ++ "/" ++ (stringsSplit processedVideoPath '/').getLastD "")) },
    processedVideoData,
    fileId_length os, fileId_alphabet os, h5, h6, h7, ?_, h10, hp1, hp2, hp3, hp4, hp5, h12,
    h13, rfl, not_slash_getLastD _, rfl, s3PrefixOf_cases _, ?_, ?_, rfl, ?_, ?_⟩
  · intro hct
    rw [hct] at h7
    have : (stringsSplit "video/mp4" '/')[1]? = some "mp4" := by decide
    rw [this] at h7
    exact (Option.some.inj h7).symm
  · rw [heq, putKeys_removeFile, putKeys_log_updateVideo, putKeys_log_putObject,
      putKeys_processVideoForFastStart os tempFile _ w2 _ h12, putKeys_writeFile,
      putKeys_osCreateTemp os _ _ tempFile _ w1 h10, putKeys_ParseMultipartForm]
  · rw [heq]
    apply mem_calls_removeFile
    apply mem_calls_log
    left
    apply mem_calls_log
    right
    rfl
  · rw [heq]
    apply mem_calls_removeFile
    apply mem_calls_log
    right
    rfl
  · rw [heq]

/-- C9 (witness): the sample upload of a 1080 by 1920 file. -/
theorem C9_object_key_and_url_witness :
    (handlerUploadVideo (samplePlatform 7 portraitProbe) sampleConfig videoRequest
        emptyWorld).2.status = some 200 ∧
    ∃ (key : String) (v : Video),
      (handlerUploadVideo (samplePlatform 7 portraitProbe) sampleConfig videoRequest
        emptyWorld).1.putKeys = [key] ∧
      v.VideoURL = some ("https://tubely.s3.us-east-2.amazonaws.com/" ++ key) ∧
      (handlerUploadVideo (samplePlatform 7 portraitProbe) sampleConfig videoRequest
        emptyWorld).2 = respondWithJSON 200 v := by
  have hs : (handlerUploadVideo (samplePlatform 7 portraitProbe) sampleConfig videoRequest
      emptyWorld).2.status = some 200 := by
    rw [handlerUploadVideo_sample]; decide
  obtain ⟨_, _, _, _, _, _, key, _, _, _, _, _, _, _, v, _,
    _, _, _, _, _, _, _, _, _, _, _, _, _, _, _, _, _, _, hpk, _, hurl, _, hres⟩ :=
    C9_object_key_and_url _ _ _ _ hs
  exact ⟨hs, key, v, hpk.trans rfl, hurl.trans rfl, hres⟩

/-- C9 (counterexample): in the sample upload of a 1080 by 1920 file the
identifier has 43 characters, not 44, and the one key passed to PutObject is
portrait/{id}.processing.mp42817365012, which does not end in .mp4 and so is
not {prefix}/{id}.mp4 for any id. -/
theorem C9_counterexample :
    (handlerUploadVideo (samplePlatform 7 portraitProbe) sampleConfig videoRequest
        emptyWorld).2.status = some 200 ∧
    (RawURLEncodingEncodeToString (randomBytes (samplePlatform 7 portraitProbe))).length ≠ 44 ∧
    (handlerUploadVideo (samplePlatform 7 portraitProbe) sampleConfig videoRequest
        emptyWorld).1.putKeys =
      ["portrait/" ++ sampleName ++ ".processing.mp42817365012"] ∧
    ¬ ∃ s : String,
      "portrait/" ++ sampleName ++ ".processing.mp42817365012" = s ++ ".mp4" := by
  refine ⟨?_, ?_, ?_, ?_⟩
  · rw [handlerUploadVideo_sample]; decide
  · rw [fileId_length]; decide
  · rw [handlerUploadVideo_sample]; decide
  · rintro ⟨s, hs⟩
    have h1 : ("portrait/" ++ sampleName ++ ".processing.mp42817365012").data.getLast? =
        some '4' := by
      rw [hs, String.data_append, List.getLast?_append]
      rfl
    revert h1
    decide

/-- The second piece of a split at slashes has no slash. -/
theorem not_slash_of_stringsSplit (s ext : String)
    (h : (stringsSplit s '/')[1]? = some ext) : '/' ∉ ext.data := by
  unfold stringsSplit at h
  have hm : ext ∈ (splitChars '/' s.data).map String.mk := List.getElem?_mem h
  obtain ⟨p, hp, rfl⟩ := List.mem_map.mp hm
  exact not_mem_of_mem_splitChars '/' s.data p hp

/-- The file name made of the identifier, a dot and an extension without
slash is a plain path element. -/
theorem plainElem_fileName (os : Platform) (ext : String) (hext : '/' ∉ ext.data) :
    plainElem ((RawURLEncodingEncodeToString (randomBytes os)).data ++ '.' :: ext.data) := by
  have hlen : ((RawURLEncodingEncodeToString (randomBytes os)).data ++ '.' :: ext.data).length
      ≥ 44 := by
    have hl : (RawURLEncodingEncodeToString (randomBytes os)).data.length = 43 :=
      fileId_length os
    simp only [List.length_append, List.length_cons, hl]
    omega
  refine ⟨?_, ?_, ?_, ?_⟩
  · intro h; rw [h] at hlen; simp at hlen
  · intro h; rw [h] at hlen; simp at hlen
  · intro h; rw [h] at hlen; simp at hlen
  · simp only [List.mem_append, List.mem_cons, not_or]
    exact ⟨not_mem_fileId os '/' (by decide), by decide, hext⟩

/-- C10 (as amended): for every thumbnail upload that is accepted and every
32-byte random draw, name, the URL-safe unpadded base64 rendering of the
random bytes, has exactly 43 characters of the URL-safe alphabet. When the
Content-Type value of the part is exactly image/jpeg or image/png, with ext
jpeg or png accordingly, the thumbnail_url set on the record and returned is
http://localhost:{port}/assets/{name}.{ext}, and the file is created with the
part's bytes at filepath.Join(assets_root, /{name}.{ext}), the cleaned form of
{assets_root}/{name}.{ext}, with the same name and ext; this is
{assets_root}/{name}.{ext} itself when the assets root is a relative path of
plain elements (none empty, a dot or two dots). -/
theorem C10_thumbnail_name_and_url (os : Platform) (cfg : apiConfig) (r : Request)
    (w : World) (h : (handlerUploadThumbnail os cfg r w).2.status = some 200) :
    ∃ (file : FilePart) (v : Video),
      FormFile (ParseMultipartForm os r.Body (10 <<< 20) w).2 "thumbnail" = some file ∧
      (RawURLEncodingEncodeToString (randomBytes os)).length = 43 ∧
      (∀ c ∈ (RawURLEncodingEncodeToString (randomBytes os)).data, c ∈ encodeURL) ∧
      Call.updateVideo v ∈ (handlerUploadThumbnail os cfg r w).1.calls ∧
      (handlerUploadThumbnail os cfg r w).2 = respondWithJSON 200 v ∧
      ∀ ext : String, (ext = "jpeg" ∨ ext = "png") → file.contentType = "image/" ++ ext →
        v.ThumbnailURL =
          some ("http://localhost:" ++ cfg.port ++ "/assets/" ++
            RawURLEncodingEncodeToString (randomBytes os) ++ "." ++ ext) ∧
        Call.createFile (filepathJoin [cfg.assetsRoot,
            "/" ++ RawURLEncodingEncodeToString (randomBytes os) ++ "." ++ ext]) ∈
          (handlerUploadThumbnail os cfg r w).1.calls ∧
        (handlerUploadThumbnail os cfg r w).1.readFile (filepathJoin [cfg.assetsRoot,
            "/" ++ RawURLEncodingEncodeToString (randomBytes os) ++ "." ++ ext]) =
          some file.data ∧
        (∀ elems : List (List Char), elems ≠ [] → (∀ e ∈ elems, plainElem e) →
          cfg.assetsRoot = String.mk (List.intercalate ['/'] elems) →
          filepathJoin [cfg.assetsRoot,
            "/" ++ RawURLEncodingEncodeToString (randomBytes os) ++ "." ++ ext] =
            cfg.assetsRoot ++ "/" ++ RawURLEncodingEncodeToString (randomBytes os) ++ "." ++
              ext) := by
  obtain ⟨videoID, token, userID, file, fileData, fileExt, _, _, _, h4, h5, h6, _, _, _, heq⟩ :=
    handlerUploadThumbnail_accepted os cfg r w h
  have hdata : fileData = file.data := by
    unfold ReadAll at h5
    split_ifs at h5
    exact (Option.some.inj h5).symm
  refine ⟨file,
    { (cfg.db.GetVideo videoID).1 with
      ThumbnailURL := some ("http://localhost:" ++ cfg.port ++ "/assets/" ++
        RawURLEncodingEncodeToString (randomBytes os) ++ "." ++ fileExt) },
    h4, fileId_length os, fileId_alphabet os, ?_, ?_, ?_⟩
  · rw [heq]
    apply mem_calls_log
    right
    rfl
  · rw [heq]
  · intro ext hext hct
    have hfe : fileExt = ext := by
      rw [hct] at h6
      have hsplit : (stringsSplit ("image/" ++ ext) '/')[1]? = some ext := by
        rcases hext with he | he <;> rw [he] <;> decide
      rw [hsplit] at h6
      exact (Option.some.inj h6).symm
    subst hfe
    refine ⟨rfl, ?_, ?_, ?_⟩
    · rw [heq]
      apply mem_calls_log
      left
      show _ ∈ ((World.writeFile _ _ _).writeFile _ _).calls
      simp only [World.writeFile]
      apply mem_calls_log
      right
      rfl
    · rw [heq, readFile_log, readFile_writeFile, hdata]
    · intro elems hne hp hroot
      have hpl := plainElem_fileName os fileExt (not_slash_of_stringsSplit _ _ h6)
      have hname : "/" ++ RawURLEncodingEncodeToString (randomBytes os) ++ "." ++ fileExt =
          String.mk ('/' :: ((RawURLEncodingEncodeToString (randomBytes os)).data ++
            '.' :: fileExt.data)) := by
        apply String.ext
        simp [String.data_append]
      rw [hname, hroot, filepathJoin_plain elems _ hne hp hpl]
      apply String.ext
      simp [String.data_append]

/-- C10 (witness): the sample upload of a PNG part. -/
theorem C10_thumbnail_name_and_url_witness :
    (handlerUploadThumbnail (samplePlatform 7 portraitProbe) sampleConfig
        (thumbnailRequest "image/png") emptyWorld).2.status = some 200 ∧
    ∃ v : Video,
      v.ThumbnailURL = some ("http://localhost:8091/assets/" ++ sampleName ++ ".png") ∧
      (handlerUploadThumbnail (samplePlatform 7 portraitProbe) sampleConfig
        (thumbnailRequest "image/png") emptyWorld).2 = respondWithJSON 200 v := by
  have hs : (handlerUploadThumbnail (samplePlatform 7 portraitProbe) sampleConfig
      (thumbnailRequest "image/png") emptyWorld).2.status = some 200 := by decide
  obtain ⟨file, v, h1, _, _, _, h5, h6⟩ := C10_thumbnail_name_and_url _ _ _ _ hs
  have hf : file = samplePart "thumbnail" "image/png" := by
    have : FormFile (ParseMultipartForm (samplePlatform 7 portraitProbe)
        (thumbnailRequest "image/png").Body (10 <<< 20) emptyWorld).2
        "thumbnail" = some (samplePart "thumbnail" "image/png") := rfl
    rw [this] at h1
    exact (Option.some.inj h1).symm
  have hu := (h6 "png" (Or.inr rfl) (by rw [hf]; rfl)).1
  refine ⟨hs, v, ?_, h5⟩
  rw [hu]
  decide

/-- C10 (counterexample): for a PNG part the name in the stored URL has 43
characters, so the URL is not of the stated form with a name of 44 characters,
and for the assets root ./assets the file is created at assets/{name}.png;
for the accepted Content-Type value image/png; charset=utf-8 the text after
the name in the URL is png; charset=utf-8, neither jpeg nor png. -/
theorem C10_counterexample :
    handlerUploadThumbnail (samplePlatform 7 portraitProbe) sampleConfig
        (thumbnailRequest "image/png") emptyWorld =
      ({ files := [("assets/" ++ sampleName ++ ".png", [1, 2, 3])],
         calls :=
          [Call.parseMultipartForm,
           Call.createFile ("assets/" ++ sampleName ++ ".png"),
           Call.updateVideo
            { sampleVideo with
              ThumbnailURL := some ("http://localhost:8091/assets/" ++ sampleName ++ ".png") }] },
       respondWithJSON 200
        { sampleVideo with
          ThumbnailURL := some ("http://localhost:8091/assets/" ++ sampleName ++ ".png") }) ∧
    (¬ ∃ name ext : String, name.length = 44 ∧ (ext = "jpeg" ∨ ext = "png") ∧
      "http://localhost:8091/assets/" ++ sampleName ++ ".png" =
        "http://localhost:" ++ sampleConfig.port ++ "/assets/" ++ name ++ "." ++ ext) ∧
    (handlerUploadThumbnail (samplePlatform 7 portraitProbe) sampleConfig
        (thumbnailRequest "image/png; charset=utf-8") emptyWorld).2 =
      respondWithJSON 200
        { sampleVideo with
          ThumbnailURL :=
            some ("http://localhost:8091/assets/" ++ sampleName ++ ".png; charset=utf-8") } ∧
    (¬ ∃ name ext : String, (name.length = 44 ∨ name.length = 43) ∧
      (ext = "jpeg" ∨ ext = "png") ∧
      "http://localhost:8091/assets/" ++ sampleName ++ ".png; charset=utf-8" =
        "http://localhost:" ++ sampleConfig.port ++ "/assets/" ++ name ++ "." ++ ext) := by
  refine ⟨by decide, ?_, by decide, ?_⟩
  · rintro ⟨name, ext, hn, he, hu⟩
    have hl := congrArg String.length hu
    simp only [String.length_append, hn] at hl
    rcases he with he | he <;> rw [he] at hl <;> revert hl <;> decide
  · rintro ⟨name, ext, hn, he, hu⟩
    have hl := congrArg String.length hu
    simp only [String.length_append] at hl
    rcases hn with hn | hn <;> rcases he with he | he <;> rw [hn, he] at hl <;>
      revert hl <;> decide

end S3Golang
